import Mathlib

/-!
# Verification of the solid-dgraph storage adapter

This file shallowly embeds the core of the `@comake/solid-dgraph` repository
(`src/DgraphDataAccessor.ts`, `src/DgraphClient.ts`, `src/DgraphUtil.ts`,
`src/DgraphUpsert.ts`) and proves or refutes the specification claims about it.

Conventions of the embedding:
* RDF terms are modeled by `Term` (the RDF/JS term classes produced by the `n3`
  data factory: named nodes, blank nodes, literals and the default graph).
* JavaScript objects returned by JSON-parsing a Dgraph query response are
  modeled by `JsValue`/`JsObject`: ordered association lists of properties in
  enumeration order.
* Plain JS objects used as insertion-ordered maps (`groupQuadsBySubject`) are
  modeled by `jsRecordPush`/`jsRecordValues`.  `Object.values` enumerates
  canonical array-index keys first in ascending numeric order and the remaining
  string keys in insertion order; `jsRecordValues` reproduces that.
* Fallible operations return `Except`; thrown JS values are modeled by
  `JsError`/`HttpError`.
* String-typed machine behavior (template literals, `replace`, `startsWith`)
  is modeled on `String.data` character lists.
-/

/-- RDF/JS term, as produced by the `n3` DataFactory: a named node, a blank node
(carrying its label), a literal (value, datatype IRI, language tag - empty
string when absent), or the default graph. -/
inductive Term where
  | namedNode (value : String)
  | blankNode (value : String)
  | literal (value : String) (datatype : String) (language : String)
  | defaultGraph
deriving DecidableEq, Repr

/-- The `.value` accessor of an RDF/JS term (the default graph has value ""). -/
def Term.value : Term → String
  | .namedNode v => v
  | .blankNode v => v
  | .literal v _ _ => v
  | .defaultGraph => ""

/-- RDF/JS quad: subject, predicate, object and graph term. -/
structure Quad where
  subject : Term
  predicate : Term
  object : Term
  graph : Term
deriving DecidableEq, Repr

/-- `MAX_TRANSACTION_RETRIES` from DgraphUtil. -/
def MAX_TRANSACTION_RETRIES : Nat := 3

/-- `INITIALIZATION_CHECK_PERIOD` (ms) from DgraphUtil. -/
def INITIALIZATION_CHECK_PERIOD : Nat := 10

/-- `MAX_INITIALIZATION_TIMEOUT_DURATION` (ms) from DgraphUtil. -/
def MAX_INITIALIZATION_TIMEOUT_DURATION : Nat := 1500

/-- `NON_RDF_KEYS` from DgraphUtil: response keys that are not RDF predicates. -/
def NON_RDF_KEYS : List String := ["uid", "uri", "container", "dgraph.type"]

/-- The xsd:string datatype IRI. -/
def xsdString : String := "http://www.w3.org/2001/XMLSchema#string"

/-- The rdf:langString datatype IRI. -/
def rdfLangString : String := "http://www.w3.org/1999/02/22-rdf-syntax-ns#langString"

/-- `literalDatatypeToPrimitivePredicate` from DgraphUtil: maps a literal
datatype IRI to the Dgraph value-slot predicate that stores literals of that
kind (the string values of the `ValuePredicate` enum). -/
def literalDatatypeToPrimitivePredicate (datatype : String) : String :=
  if datatype = "http://www.w3.org/2001/XMLSchema#dateTime" ∨
     datatype = "http://www.w3.org/2001/XMLSchema#date" then
    "_value.%dt"
  else if datatype = "http://www.w3.org/2001/XMLSchema#int" ∨
     datatype = "http://www.w3.org/2001/XMLSchema#positiveInteger" ∨
     datatype = "http://www.w3.org/2001/XMLSchema#integer" then
    "_value.#i"
  else if datatype = "http://www.w3.org/2001/XMLSchema#boolean" then
    "_value.?"
  else if datatype = "http://www.w3.org/2001/XMLSchema#double" ∨
     datatype = "http://www.w3.org/2001/XMLSchema#float" then
    "_value.#"
  else
    "_value.%"

/-- `value.replace(/"/gu, '\\\"')` from the accessor: escape every double-quote
character of a literal lexical value as backslash-quote. -/
def escapeQuotes (s : String) : String :=
  ⟨s.data.flatMap (fun c => if c = '\"' then ['\\', '\"'] else [c])⟩

/-- A JSON value inside a parsed Dgraph response: a string, a nested node
object, or an array of nested node objects (the only shapes the decoder
distinguishes: any other JSON value is skipped by its `typeof` checks). -/
inductive JsValue where
  | str (s : String)
  | obj (entries : List (String × JsValue))
  | arr (objects : List (List (String × JsValue)))
deriving Repr

/-- A parsed JS object: its own properties in enumeration order. -/
abbrev JsObject := List (String × JsValue)

/-- `key in entity` for a JS object. -/
def jsHasKey (e : JsObject) (k : String) : Bool :=
  e.any (fun kv => kv.1 == k)

/-- `entity[key]` when the property is a string, else `none` (JS `undefined` or
a non-string value). -/
def jsGetStr (e : JsObject) (k : String) : Option String :=
  match e.find? (fun kv => kv.1 == k) with
  | some (_, .str s) => some s
  | _ => none

/-- `Boolean(entity[key])`: false for a missing property or an empty string,
true for a non-empty string or any object/array value. -/
def jsTruthyKey (e : JsObject) (k : String) : Bool :=
  match e.find? (fun kv => kv.1 == k) with
  | some (_, .str s) => !(s == "")
  | some (_, _) => true
  | none => false

/-- `mapAux`-free model of JS `String.prototype.toLowerCase` restricted to
ASCII (the n3 `Literal.language` getter lowercases the tag). -/
def lowerChar (c : Char) : Char :=
  if 65 ≤ c.toNat ∧ c.toNat ≤ 90 then Char.ofNat (c.toNat + 32) else c

/-- ASCII lowercase of a string (see `lowerChar`). -/
def jsToLower (s : String) : String := ⟨s.data.map lowerChar⟩

/-- The n3 `Literal` constructed by the accessor from the template
`"value" ++ datatypePart ++ languagePart` (with `datatypePart` either empty or
`^^datatype`, and `languagePart` either empty or `@language`), as observed
through the n3 accessors `value`/`datatypeString`/`language`.  Those accessors
re-parse the id string around its last double quote; this definition states the
outcome of that parse for datatype IRIs and language tags containing no double
quote (IRIs and BCP47 tags cannot contain one).  In particular when both parts
are present (which well-formed RDF terms never produce) n3 reads the datatype
as `datatype ++ "@" ++ language` and an empty language, and a present language
tag is lowercased by the `language` getter. -/
def mkN3Literal (value : String) (isNonString : Bool) (datatype language : String) : Term :=
  if language = "" then
    if isNonString then Term.literal value datatype ""
    else Term.literal value xsdString ""
  else
    if isNonString then Term.literal value (datatype ++ "@" ++ language) ""
    else Term.literal value rdfLangString (jsToLower language)

/-- `key.startsWith('_value')` on a property name. -/
def isValueSlotKey (k : String) : Bool :=
  k.data.take 6 == "_value".data

/-- `dgraphNodeToLiteral` from the accessor: find the first `_value.*` property
(the literal value slot; the JS template coerces a missing slot to the string
"undefined"), read `language` and `datatype`, and rebuild an n3 literal.  A
datatype is only rendered when it is truthy and neither xsd:string nor
rdf:langString. -/
def dgraphNodeToLiteral (literalNode : JsObject) : Term :=
  let value : String :=
    match literalNode.find? (fun kv => isValueSlotKey kv.1) with
    | some (_, .str s) => s
    | _ => "undefined"
  let language : String := (jsGetStr literalNode "language").getD ""
  let datatype : String := (jsGetStr literalNode "datatype").getD ""
  let isNonString : Bool := !(datatype == "") && !(datatype == xsdString) && !(datatype == rdfLangString)
  mkN3Literal value isNonString datatype language

/-- `dgraphNodeToTerm` from the accessor: a truthy `blankNode` property wins,
then a `uri` property, else the node is decoded as a literal.  (JS would pass
`undefined` to the term constructor when the accessed property is missing; the
model uses the marker string "undefined", which is never hit on well-formed
responses.) -/
def dgraphNodeToTerm (entity : JsObject) : Term :=
  if jsTruthyKey entity "blankNode" then
    Term.blankNode ((jsGetStr entity "blankNode").getD "undefined")
  else if jsHasKey entity "uri" then
    Term.namedNode ((jsGetStr entity "uri").getD "undefined")
  else
    dgraphNodeToLiteral entity

/-- The recursive call of `rdfQuadsFromJsonArray` with a parent term and a
predicate: each array element yields exactly one quad in the default graph
(that branch of the source never recurses further). -/
def rdfQuadsFromNestedJson (json : List JsObject) (parent predicate : Term) : List Quad :=
  json.map (fun entity => ⟨parent, predicate, dgraphNodeToTerm entity, Term.defaultGraph⟩)

/-- The root branch of `rdfQuadsFromJsonArray` applied to one response node: if
the node has a `uri` or `blankNode` identity, build its subject term, then for
every non-reserved key decode a nested object or array of objects with that key
as the predicate IRI; string-valued properties are skipped by the `typeof`
checks. -/
def rdfQuadsFromRootEntity (entity : JsObject) : List Quad :=
  if jsHasKey entity "uri" ∨ jsHasKey entity "blankNode" then
    let isBlankNode := jsHasKey entity "blankNode" && jsTruthyKey entity "blankNode"
    let term :=
      if isBlankNode then Term.blankNode ((jsGetStr entity "blankNode").getD "undefined")
      else Term.namedNode ((jsGetStr entity "uri").getD "undefined")
    (entity.filter (fun kv => !(NON_RDF_KEYS.contains kv.1))).flatMap (fun kv =>
      match kv.2 with
      | .arr objects => rdfQuadsFromNestedJson objects term (Term.namedNode kv.1)
      | .obj o => rdfQuadsFromNestedJson [o] term (Term.namedNode kv.1)
      | .str _ => [])
  else []

/-- `rdfQuadsFromJsonArray` from the accessor: with a parent and predicate it
emits one quad per node; otherwise it decodes each root node that carries an
identity, accumulating in order. -/
def rdfQuadsFromJsonArray (json : List JsObject) (parent predicate : Option Term) : List Quad :=
  match parent, predicate with
  | some p, some pr => rdfQuadsFromNestedJson json p pr
  | _, _ => json.flatMap rdfQuadsFromRootEntity

/-- `obj[key].push(value)` on a plain JS object used as a map, with property
creation on first use: the association list keeps key insertion order. -/
def jsRecordPush {α : Type} (record : List (String × List α)) (k : String) (a : α) :
    List (String × List α) :=
  match record with
  | [] => [(k, [a])]
  | (k', vs) :: rest =>
      if k' = k then (k', vs ++ [a]) :: rest else (k', vs) :: jsRecordPush rest k a

/-- `list.reduce((obj, a) => { obj[key(a)].push(a) }, {})`. -/
def groupByStringKey {α : Type} (key : α → String) (l : List α) : List (String × List α) :=
  l.foldl (fun r a => jsRecordPush r (key a) a) []

/-- `groupQuadsBySubject` from the accessor: group a quad list into a plain JS
object keyed by `quad.subject.value`. -/
def groupQuadsBySubject (quads : List Quad) : List (String × List Quad) :=
  groupByStringKey (fun q => q.subject.value) quads

/-- ASCII digit test on a character (JS canonical array-index keys). -/
def isDigitChar (c : Char) : Bool :=
  48 ≤ c.toNat && c.toNat ≤ 57

/-- Decimal value of a digit character list. -/
def digitsToNat (l : List Char) : Nat :=
  l.foldl (fun n c => n * 10 + (c.toNat - 48)) 0

/-- ECMAScript canonical array-index property name: a string of digits with no
leading zero (except "0" itself) whose numeric value is below 2^32 - 1. -/
def isArrayIndex (s : String) : Bool :=
  !(s == "") && s.data.all isDigitChar &&
    (!(s.data.head? == some '0') || s == "0") &&
    decide (digitsToNat s.data < 4294967295)

/-- Insert a key into a list sorted by ascending numeric value. -/
def insertByNumericValue (k : String) : List String → List String
  | [] => [k]
  | x :: xs =>
      if digitsToNat k.data ≤ digitsToNat x.data then k :: x :: xs
      else x :: insertByNumericValue k xs

/-- Sort array-index keys by ascending numeric value (insertion sort). -/
def sortByNumericValue (l : List String) : List String :=
  l.foldr insertByNumericValue []

/-- ECMAScript own-property enumeration order: canonical array-index keys first
in ascending numeric order, then the remaining string keys in insertion
order. -/
def jsOrderedKeys (keys : List String) : List String :=
  sortByNumericValue (keys.filter isArrayIndex) ++ keys.filter (fun k => !(isArrayIndex k))

/-- First association for a key. -/
def recLookup {α : Type} (record : List (String × List α)) (k : String) : Option (List α) :=
  match record with
  | [] => none
  | (k', vs) :: rest => if k' = k then some vs else recLookup rest k

/-- `Object.values(record)`: the groups in ECMAScript enumeration order of
their keys. -/
def jsRecordValues {α : Type} (record : List (String × List α)) : List (List α) :=
  (jsOrderedKeys (record.map Prod.fst)).filterMap (recLookup record)

/-- The `DgraphUpsert` accumulator: ordered query blocks, set statements and
delete statements. -/
structure DgraphUpsert where
  queries : List String
  setNquads : List String
  delNquads : List String
deriving Repr

/-- `entityUidVarQuery` from the accessor (exact template text). -/
def entityUidVarQuery (uidName uri : String) : String :=
  uidName ++ " as var(func: eq(<uri>, \"" ++ uri ++ "\"))\n        @filter(eq(<dgraph.type>, \"Entity\"))"

/-- `blankNodeUidVarQuery` from the accessor (exact template text). -/
def blankNodeUidVarQuery (uidName containerUidName blankNodeName : String) : String :=
  uidName ++ " as var(func: eq(<blankNode>, \"" ++ blankNodeName ++ "\"))\n        @filter(uid_in(container, uid(" ++ containerUidName ++ ")) and eq(<dgraph.type>, \"EntityData\"))"

/-- `dataOfTypeInEntityQuery` from the accessor (exact template text). -/
def dataOfTypeInEntityQuery (entityUidName dgraphType : String) : String :=
  entityUidName ++ dgraphType ++ " as var(func: has(container))\n      @filter(uid_in(container, uid(" ++ entityUidName ++ ")) and eq(<dgraph.type>, \"" ++ dgraphType ++ "\"))"

/-- The literal deduplication query of
`setNQuadsAndQueriesForQuadsBySubjectInContainer` (exact template text). -/
def literalUidVarQuery (uidVar key value language datatype : String) : String :=
  uidVar ++ " as var(func: eq(<" ++ key ++ ">, \"" ++ value ++ "\"))\n              @filter(eq(<language>, \"" ++ language ++ "\") and\n                eq(<datatype>, \"" ++ datatype ++ "\"))"

/-- The body of the inner `forEach` of
`setNQuadsAndQueriesForQuadsBySubjectInContainer`: the query blocks and set
statements emitted for one quad of a subject group (literal, named-node or
blank-node object; any other object term type matches no branch). -/
def setStmtsForQuad (blankNodeName uidVar containerUidName : String) (rdfQuad : Quad) :
    List String × List String :=
  match rdfQuad.object with
  | .literal v dt lang =>
      let key := literalDatatypeToPrimitivePredicate dt
      let value := escapeQuotes v
      ([literalUidVarQuery uidVar key value lang dt],
       ["_:" ++ blankNodeName ++ " <" ++ rdfQuad.predicate.value ++ "> uid(" ++ uidVar ++ ") .",
        "uid(" ++ uidVar ++ ") <" ++ key ++ "> \"" ++ value ++ "\" .",
        "uid(" ++ uidVar ++ ") <language> \"" ++ lang ++ "\" .",
        "uid(" ++ uidVar ++ ") <datatype> \"" ++ dt ++ "\" ."])
  | .namedNode u =>
      ([entityUidVarQuery uidVar u],
       ["_:" ++ blankNodeName ++ " <" ++ rdfQuad.predicate.value ++ "> uid(" ++ uidVar ++ ") .",
        "uid(" ++ uidVar ++ ") <uri> \"" ++ u ++ "\" .",
        "uid(" ++ uidVar ++ ") <dgraph.type> \"Entity\" ."])
  | .blankNode b =>
      ([blankNodeUidVarQuery uidVar containerUidName b],
       ["_:" ++ blankNodeName ++ " <" ++ rdfQuad.predicate.value ++ "> uid(" ++ uidVar ++ ") .",
        "uid(" ++ uidVar ++ ") <blankNode> \"" ++ b ++ "\" .",
        "uid(" ++ uidVar ++ ") <container> uid(" ++ containerUidName ++ ") .",
        "uid(" ++ uidVar ++ ") <dgraph.type> \"EntityData\" ."])
  | .defaultGraph => ([], [])

/-- The body of the outer `forEach`: the statements for one subject group with
index `i` (blank-node template `dgraphType ++ i`, identity statement chosen by
the first quad of the group, `container` edge, type pin, then the per-quad
statements with `uidVar = dgraphType ++ i ++ j`). -/
def stmtsForGroup (containerUidName dgraphType : String) (i : Nat) (group : List Quad) :
    List String × List String :=
  let blankNodeName := dgraphType ++ Nat.repr i
  let idStmt : List String :=
    match group.head? with
    | some q =>
        match q.subject with
        | .blankNode b => ["_:" ++ blankNodeName ++ " <blankNode> \"" ++ b ++ "\" ."]
        | s => ["_:" ++ blankNodeName ++ " <uri> \"" ++ s.value ++ "\" ."]
    | none => []
  let perQuad := group.enum.map
    (fun ij => setStmtsForQuad blankNodeName (blankNodeName ++ Nat.repr ij.1) containerUidName ij.2)
  (perQuad.flatMap Prod.fst,
   idStmt ++
     ["_:" ++ blankNodeName ++ " <container> uid(" ++ containerUidName ++ ") .",
      "_:" ++ blankNodeName ++ " <dgraph.type> \"" ++ dgraphType ++ "\" ."] ++
     perQuad.flatMap Prod.snd)

/-- `setNQuadsAndQueriesForQuadsBySubjectInContainer` from the accessor: group
the quads by subject, then emit statements for each group in `Object.values`
order.  Returns (query blocks, set statements). -/
def setNQuadsAndQueriesForQuadsBySubjectInContainer (quads : List Quad)
    (containerUidName dgraphType : String) : List String × List String :=
  let per := (jsRecordValues (groupQuadsBySubject quads)).enum.map
    (fun ig => stmtsForGroup containerUidName dgraphType ig.1 ig.2)
  (per.flatMap Prod.fst, per.flatMap Prod.snd)

/-- `replaceDataOfTypeInUidName` from the accessor: declare the typed-children
query variable, wildcard-delete those children, then insert the new data.
Returns (query blocks, set statements, delete statements). -/
def replaceDataOfTypeInUidName (quads : List Quad) (entityUidName dgraphType : String) :
    List String × List String × List String :=
  let qs := setNQuadsAndQueriesForQuadsBySubjectInContainer quads entityUidName dgraphType
  (dataOfTypeInEntityQuery entityUidName dgraphType :: qs.1,
   qs.2,
   ["uid(" ++ entityUidName ++ dgraphType ++ ") * * ."])

/-- `sendDgraphUpsert` from the accessor, as the upsert it accumulates before
handing it to the client: entity query and pins, metadata replacement, optional
parent pins plus containment edge, optional data replacement. -/
def sendDgraphUpsert (name : String) (metadata : List Quad) (parent : Option String)
    (triples : Option (List Quad)) : DgraphUpsert :=
  let md := replaceDataOfTypeInUidName metadata "entity" "Metadata"
  let parentPart : List String × List String :=
    match parent with
    | some p =>
        ([entityUidVarQuery "parent" p],
         ["uid(parent) <uri> \"" ++ p ++ "\" .",
          "uid(parent) <dgraph.type> \"Entity\" .",
          "uid(entity) <container> uid(parent) ."])
    | none => ([], [])
  let dataPart : List String × List String × List String :=
    match triples with
    | some ts => replaceDataOfTypeInUidName ts "entity" "EntityData"
    | none => ([], [], [])
  { queries := entityUidVarQuery "entity" name :: (md.1 ++ parentPart.1 ++ dataPart.1),
    setNquads :=
      ["uid(entity) <uri> \"" ++ name ++ "\" .",
       "uid(entity) <dgraph.type> \"Entity\" ."] ++ md.2.1 ++ parentPart.2 ++ dataPart.2.1,
    delNquads := md.2.2 ++ dataPart.2.2 }

/-- Typed HTTP errors thrown by the accessor. -/
inductive HttpError where
  | notFound
  | notImplemented (message : String)
  | unsupportedMediaType (message : String)
deriving DecidableEq, Repr

/-- Modelled from the spec: the host framework constant `CONTENT_TYPE`, the
predicate IRI of the synthetic content-type-assertion quad (the constant itself
lives in `@solid/community-server`, outside this repository). -/
def CONTENT_TYPE : String := "http://www.w3.org/ns/ma-ont#format"

/-- Modelled from the spec: the host framework constant `INTERNAL_QUADS`, the
internal RDF-quads content-type marker. -/
def INTERNAL_QUADS : String := "internal/quads"

/-- Modelled from the spec: `metadata.removeAll(namedNode(CONTENT_TYPE))` of the
host framework strips every quad using the given predicate. -/
def removeAllWithPredicate (quads : List Quad) (predicateIri : String) : List Quad :=
  quads.filter (fun q => !(q.predicate == Term.namedNode predicateIri))

/-- `writeDocument` from the accessor, for an already materialized triple list:
reject any quad outside the default graph with the NotImplemented error before
anything is sent, otherwise strip content-type metadata and build the upsert
for the resource's data and metadata.  The returned upsert is the single
database write the operation performs. -/
def writeDocument (name : String) (parent : Option String) (triples : List Quad)
    (metadata : List Quad) : Except HttpError DgraphUpsert :=
  if triples.any (fun t => !(t.graph == Term.defaultGraph)) then
    Except.error (HttpError.notImplemented "Only triples in the default graph are supported.")
  else
    Except.ok (sendDgraphUpsert name (removeAllWithPredicate metadata CONTENT_TYPE) parent (some triples))

/-- `writeContainer` from the accessor: metadata-only upsert. -/
def writeContainer (name : String) (parent : Option String) (metadata : List Quad) : DgraphUpsert :=
  sendDgraphUpsert name metadata parent none

/-- Thrown JS values reaching the client retry logic: the `dgraph.ERR_ABORTED`
sentinel, a gRPC service error (code and details), `null`, `undefined`, or any
other error value. -/
inductive JsError where
  | errAborted
  | serviceError (code : Int) (details : String)
  | jsNull
  | jsUndefined
  | otherError (message : String)
deriving DecidableEq, Repr

/-- JS truthiness of a caught value (the `error &&` guard). -/
def jsTruthyError : JsError → Bool
  | .jsNull => false
  | .jsUndefined => false
  | _ => true

/-- `GRPC_UNAVAILABLE_ERROR_CODE` from DgraphClient. -/
def GRPC_UNAVAILABLE_ERROR_CODE : Int := 14

/-- `GRPC_UNAVAILABLE_ERROR_DETAILS` from DgraphClient. -/
def GRPC_UNAVAILABLE_ERROR_DETAILS : List String :=
  ["Connection dropped", "read ECONNRESET", "No connection established"]

/-- `(error as grpc.ServiceError).code`: only a service error carries one. -/
def jsErrorCode : JsError → Option Int
  | .serviceError c _ => some c
  | _ => none

/-- `(error as grpc.ServiceError).details`. -/
def jsErrorDetails : JsError → Option String
  | .serviceError _ d => some d
  | _ => none

/-- `isRetriableGrpcError` from DgraphClient: code 14 and one of the known
transient detail strings (a missing property never equals them). -/
def isRetriableGrpcError (e : JsError) : Bool :=
  jsErrorCode e == some GRPC_UNAVAILABLE_ERROR_CODE &&
    (match jsErrorDetails e with
     | some d => GRPC_UNAVAILABLE_ERROR_DETAILS.contains d
     | none => false)

/-- `isRetriableTransactionError` from DgraphClient: non-null, and either the
abort sentinel or a retriable gRPC error. -/
def isRetriableTransactionError (e : JsError) : Bool :=
  !(e == JsError.jsNull) && (e == JsError.errAborted || isRetriableGrpcError e)

/-- `performBlockWithTransaction` from DgraphClient: run the transaction block
(modeled as the outcome of each numbered attempt), and on a truthy retriable
error with fewer than `MAX_TRANSACTION_RETRIES` tries recurse with `tries + 1`;
any other caught value is re-thrown unchanged. -/
def performBlockWithTransaction {α : Type} (transactionBlock : Nat → Except JsError α)
    (tries : Nat) : Except JsError α :=
  match transactionBlock tries with
  | .ok v => .ok v
  | .error e =>
      if h : jsTruthyError e = true ∧ isRetriableTransactionError e = true ∧
          tries < MAX_TRANSACTION_RETRIES then
        performBlockWithTransaction transactionBlock (tries + 1)
      else
        .error e
termination_by MAX_TRANSACTION_RETRIES - tries
decreasing_by
  have := h.2.2
  simp only [MAX_TRANSACTION_RETRIES] at *
  omega

/-- Outcome of one `ensureClientIsInitialized` call chain: the caller itself
starts an initialization, proceeds because the client is initialized, or
throws the initialization-failure error. -/
inductive InitOutcome where
  | startsInit (atWaitTime : Nat)
  | proceeds (atWaitTime : Nat)
  | throwsInitError (message : String)
deriving DecidableEq, Repr

/-- `ensureClientIsInitialized` from the accessor.  `flags w` gives the
`(clientInitialized, initializingClient)` pair observed by the synchronous
check performed after a total of `w` ms of waiting.  Returns the outcome
together with the total number of milliseconds slept in `wait` calls. -/
def ensureClientIsInitialized (flags : Nat → Bool × Bool) (waitTime : Nat) :
    InitOutcome × Nat :=
  if (flags waitTime).1 = false ∧ (flags waitTime).2 = false then
    (InitOutcome.startsInit waitTime, 0)
  else if h : (flags waitTime).1 = false ∧ (flags waitTime).2 = true ∧
      waitTime ≤ MAX_INITIALIZATION_TIMEOUT_DURATION then
    let rest := ensureClientIsInitialized flags (waitTime + INITIALIZATION_CHECK_PERIOD)
    (rest.1, INITIALIZATION_CHECK_PERIOD + rest.2)
  else if (flags waitTime).1 = false then
    (InitOutcome.throwsInitError "Failed to initialize Dgraph database.", 0)
  else
    (InitOutcome.proceeds waitTime, 0)
termination_by MAX_INITIALIZATION_TIMEOUT_DURATION + 1 - waitTime
decreasing_by
  have := h.2.2
  simp only [MAX_INITIALIZATION_TIMEOUT_DURATION, INITIALIZATION_CHECK_PERIOD] at *
  omega

/-- A `RepresentationMetadata` as the accessor observes it: the resource
identifier it is about and its quads. -/
structure RepresentationMetadataModel where
  identifier : String
  quads : List Quad
deriving DecidableEq, Repr

/-- Whether a quad asserts a content type on the given identifier. -/
def isContentTypeQuadOn (identifier : String) (q : Quad) : Bool :=
  q.subject == Term.namedNode identifier && q.predicate == Term.namedNode CONTENT_TYPE

/-- Modelled from the spec: the host framework `RepresentationMetadata`
contentType setter overwrites the content-type assertion - it removes any
existing content-type quad on the identifier and appends exactly one quad
asserting the new content type on it. -/
def setContentType (m : RepresentationMetadataModel) (contentType : String) :
    RepresentationMetadataModel :=
  { m with quads := m.quads.filter (fun q => !(isContentTypeQuadOn m.identifier q)) ++
      [⟨Term.namedNode m.identifier, Term.namedNode CONTENT_TYPE,
        Term.literal contentType xsdString "", Term.defaultGraph⟩] }

/-- Modelled from the spec: the host framework `isContainerIdentifier`, true
exactly when the identifier path ends with the path separator. -/
def isContainerIdentifier (identifier : String) : Bool :=
  identifier.data.getLast? == some '/'

/-- `getMetadata` from the accessor, applied to the decoded response of its
fixed metadata query: throw NotFound when the decode yields zero quads, else
wrap the quads and, for a non-container identifier, set the internal quad
content type. -/
def getMetadata (identifier : String) (responseData : List JsObject) :
    Except HttpError RepresentationMetadataModel :=
  let quads := rdfQuadsFromJsonArray responseData none none
  if quads.length = 0 then
    Except.error HttpError.notFound
  else
    let metadata : RepresentationMetadataModel := ⟨identifier, quads⟩
    if isContainerIdentifier identifier = false then
      Except.ok (setContentType metadata INTERNAL_QUADS)
    else
      Except.ok metadata

/-! ## Claim C2: non-default-graph input is rejected before any write -/

/-- C2: for every input quad list containing at least one quad whose graph is
not the default graph, `writeDocument` throws the NotImplemented error with the
exact message "Only triples in the default graph are supported."; the returned
value is the error and no upsert is built or sent. -/
theorem writeDocument_nonDefaultGraph_rejected
    (name : String) (parent : Option String) (triples metadata : List Quad)
    (h : ∃ t ∈ triples, t.graph ≠ Term.defaultGraph) :
    writeDocument name parent triples metadata =
      Except.error (HttpError.notImplemented "Only triples in the default graph are supported.") := by
  obtain ⟨t, ht, hg⟩ := h
  unfold writeDocument
  rw [if_pos]
  exact List.any_eq_true.mpr ⟨t, ht, by simpa using hg⟩

/-- Witness for C2 at a concrete input: one quad in a named graph. -/
theorem writeDocument_nonDefaultGraph_rejected_witness :
    writeDocument "http://test.com/doc" (some "http://test.com/")
      [⟨Term.namedNode "urn:s", Term.namedNode "urn:p", Term.namedNode "urn:o",
        Term.namedNode "urn:g"⟩] [] =
      Except.error (HttpError.notImplemented "Only triples in the default graph are supported.") :=
  writeDocument_nonDefaultGraph_rejected _ _ _ _
    ⟨⟨Term.namedNode "urn:s", Term.namedNode "urn:p", Term.namedNode "urn:o",
      Term.namedNode "urn:g"⟩, by simp, by decide⟩

/-! ## Claim C3: transaction retry policy -/

/-- Helper for C3: the retry recursion only ever inspects attempts
1 .. MAX_TRANSACTION_RETRIES, so two blocks agreeing there behave alike. -/
theorem performBlockWithTransaction_congrAux {α : Type} (b b' : Nat → Except JsError α)
    (h : ∀ n, n ≤ MAX_TRANSACTION_RETRIES → b n = b' n) :
    ∀ fuel tries, MAX_TRANSACTION_RETRIES ≤ tries + fuel → 1 ≤ tries →
      tries ≤ MAX_TRANSACTION_RETRIES →
      performBlockWithTransaction b tries = performBlockWithTransaction b' tries := by
  intro fuel
  induction fuel with
  | zero =>
      intro tries h1 h2 h3
      unfold performBlockWithTransaction
      rw [h tries h3]
      cases hb : b' tries with
      | ok v => rfl
      | error e =>
          have hnot : ¬ (jsTruthyError e = true ∧ isRetriableTransactionError e = true ∧
              tries < MAX_TRANSACTION_RETRIES) := by
            rintro ⟨-, -, hlt⟩
            omega
          dsimp only
          rw [dif_neg hnot, dif_neg hnot]
  | succ n ih =>
      intro tries h1 h2 h3
      unfold performBlockWithTransaction
      rw [h tries h3]
      cases hb : b' tries with
      | ok v => rfl
      | error e =>
          by_cases hc : (jsTruthyError e = true ∧ isRetriableTransactionError e = true ∧
              tries < MAX_TRANSACTION_RETRIES)
          · dsimp only
            rw [dif_pos hc, dif_pos hc]
            have hle : tries + 1 ≤ MAX_TRANSACTION_RETRIES := hc.2.2
            exact ih (tries + 1) (by omega) (by omega) hle
          · dsimp only
            rw [dif_neg hc, dif_neg hc]

/-- C3: the retry policy of the client transport.  A successful first attempt
is returned as is; a truthy retriable failure (the abort sentinel or a
transient gRPC-unavailable error) is retried; after retriable failures on
attempts 1 and 2, whatever attempt 3 throws is propagated unchanged (even the
non-Error abort sentinel); a non-retriable (or falsy) first failure propagates
immediately; at most MAX_TRANSACTION_RETRIES = 3 attempts are ever consulted;
and the retriable set is exactly the abort sentinel plus gRPC code 14 with one
of the three known transient detail strings. -/
theorem performBlockWithTransaction_retry_policy {α : Type}
    (transactionBlock : Nat → Except JsError α) (e₁ e₂ e₃ : JsError) (v : α) :
    (transactionBlock 1 = .ok v → performBlockWithTransaction transactionBlock 1 = .ok v) ∧
    (transactionBlock 1 = .error e₁ → jsTruthyError e₁ = true →
      isRetriableTransactionError e₁ = true → transactionBlock 2 = .ok v →
      performBlockWithTransaction transactionBlock 1 = .ok v) ∧
    (transactionBlock 1 = .error e₁ → jsTruthyError e₁ = true →
      isRetriableTransactionError e₁ = true →
      transactionBlock 2 = .error e₂ → jsTruthyError e₂ = true →
      isRetriableTransactionError e₂ = true →
      transactionBlock 3 = .error e₃ →
      performBlockWithTransaction transactionBlock 1 = .error e₃) ∧
    (transactionBlock 1 = .error e₁ →
      ¬ (jsTruthyError e₁ = true ∧ isRetriableTransactionError e₁ = true) →
      performBlockWithTransaction transactionBlock 1 = .error e₁) ∧
    (∀ transactionBlock' : Nat → Except JsError α,
      (∀ n, n ≤ MAX_TRANSACTION_RETRIES → transactionBlock n = transactionBlock' n) →
      performBlockWithTransaction transactionBlock 1 =
        performBlockWithTransaction transactionBlock' 1) ∧
    (isRetriableTransactionError JsError.errAborted = true ∧
     isRetriableTransactionError (JsError.serviceError 14 "Connection dropped") = true ∧
     isRetriableTransactionError (JsError.serviceError 14 "read ECONNRESET") = true ∧
     isRetriableTransactionError (JsError.serviceError 14 "No connection established") = true ∧
     isRetriableTransactionError (JsError.serviceError 13 "Connection dropped") = false ∧
     isRetriableTransactionError (JsError.serviceError 14 "other detail") = false ∧
     isRetriableTransactionError (JsError.otherError "boom") = false ∧
     isRetriableTransactionError JsError.jsNull = false ∧
     isRetriableTransactionError JsError.jsUndefined = false) := by
  refine ⟨?_, ?_, ?_, ?_, ?_, by decide⟩
  · intro h1
    unfold performBlockWithTransaction
    rw [h1]
  · intro h1 ht1 hr1 h2
    unfold performBlockWithTransaction
    rw [h1]
    dsimp only
    rw [dif_pos ⟨ht1, hr1, by decide⟩]
    unfold performBlockWithTransaction
    rw [show (1 : Nat) + 1 = 2 from rfl, h2]
  · intro h1 ht1 hr1 h2 ht2 hr2 h3
    unfold performBlockWithTransaction
    rw [h1]
    dsimp only
    rw [dif_pos ⟨ht1, hr1, by decide⟩]
    unfold performBlockWithTransaction
    rw [show (1 : Nat) + 1 = 2 from rfl, h2]
    dsimp only
    rw [dif_pos ⟨ht2, hr2, by decide⟩]
    unfold performBlockWithTransaction
    rw [show (2 : Nat) + 1 = 3 from rfl, h3]
    have hnot : ¬ (jsTruthyError e₃ = true ∧ isRetriableTransactionError e₃ = true ∧
        3 < MAX_TRANSACTION_RETRIES) := by
      rintro ⟨-, -, hlt⟩
      simp [MAX_TRANSACTION_RETRIES] at hlt
    dsimp only
    rw [dif_neg hnot]
  · intro h1 hnr
    unfold performBlockWithTransaction
    rw [h1]
    dsimp only
    rw [dif_neg (by rintro ⟨a, b, -⟩; exact hnr ⟨a, b⟩)]
  · intro b' hb
    exact performBlockWithTransaction_congrAux _ _ hb MAX_TRANSACTION_RETRIES 1 (by decide)
      (by decide) (by decide)

/-- A concrete attempt schedule for the C3 witness: abort on attempt 1, a
transient gRPC error on attempt 2, an arbitrary error on attempt 3. -/
def demoTransactionBlock : Nat → Except JsError Nat :=
  fun n =>
    if n = 1 then Except.error JsError.errAborted
    else if n = 2 then Except.error (JsError.serviceError 14 "read ECONNRESET")
    else Except.error (JsError.otherError "final failure")

/-- Witness for C3 at a concrete input: three failing attempts, the third
error is propagated unchanged. -/
theorem performBlockWithTransaction_retry_policy_witness :
    performBlockWithTransaction demoTransactionBlock 1 =
      Except.error (JsError.otherError "final failure") :=
  (performBlockWithTransaction_retry_policy demoTransactionBlock
    JsError.errAborted (JsError.serviceError 14 "read ECONNRESET")
    (JsError.otherError "final failure") 0).2.2.1
    rfl (by decide) (by decide) rfl (by decide) (by decide) rfl

/-! ## Claim C7: getMetadata throws NotFound iff the decode is empty -/

/-- C7: for every identifier and decoded metadata query response, `getMetadata`
throws the NotFound error if and only if `rdfQuadsFromJsonArray` yields zero
quads from the response. -/
theorem getMetadata_notFound_iff_empty (identifier : String) (responseData : List JsObject) :
    getMetadata identifier responseData = Except.error HttpError.notFound ↔
      rdfQuadsFromJsonArray responseData none none = [] := by
  unfold getMetadata
  by_cases hl : (rdfQuadsFromJsonArray responseData none none).length = 0
  · simp only [hl, if_pos rfl]
    simp [List.length_eq_zero.mp hl]
  · rw [if_neg hl]
    constructor
    · intro h
      by_cases hc : isContainerIdentifier identifier = false
      · rw [if_pos hc] at h
        exact absurd h (by simp)
      · rw [if_neg hc] at h
        exact absurd h (by simp)
    · intro h
      exact absurd (by rw [h]; rfl) hl

/-! ## Claim C5: literal write path and the value-slot table -/

/-- C5: for a quad with a literal object the write path emits exactly one
query block (the value-node deduplication lookup) and exactly four set
statements: the predicate edge, a single value-slot assignment whose key is
chosen from the datatype by `literalDatatypeToPrimitivePredicate`, a language
statement carrying the (possibly empty) language tag, and a datatype statement
carrying the datatype IRI.  The fixed table maps dateTime/date to the datetime
slot, int/positiveInteger/integer to the integer slot, boolean to the boolean
slot, double/float to the float slot, and every other datatype to the string
slot. -/
theorem literal_write_value_slot_table
    (blankNodeName uidVar containerUidName : String) (s p g : Term) (v dt lang : String) :
    (setStmtsForQuad blankNodeName uidVar containerUidName ⟨s, p, Term.literal v dt lang, g⟩ =
      ([literalUidVarQuery uidVar (literalDatatypeToPrimitivePredicate dt) (escapeQuotes v) lang dt],
       ["_:" ++ blankNodeName ++ " <" ++ p.value ++ "> uid(" ++ uidVar ++ ") .",
        "uid(" ++ uidVar ++ ") <" ++ literalDatatypeToPrimitivePredicate dt ++ "> \"" ++ escapeQuotes v ++ "\" .",
        "uid(" ++ uidVar ++ ") <language> \"" ++ lang ++ "\" .",
        "uid(" ++ uidVar ++ ") <datatype> \"" ++ dt ++ "\" ."])) ∧
    literalDatatypeToPrimitivePredicate "http://www.w3.org/2001/XMLSchema#dateTime" = "_value.%dt" ∧
    literalDatatypeToPrimitivePredicate "http://www.w3.org/2001/XMLSchema#date" = "_value.%dt" ∧
    literalDatatypeToPrimitivePredicate "http://www.w3.org/2001/XMLSchema#int" = "_value.#i" ∧
    literalDatatypeToPrimitivePredicate "http://www.w3.org/2001/XMLSchema#positiveInteger" = "_value.#i" ∧
    literalDatatypeToPrimitivePredicate "http://www.w3.org/2001/XMLSchema#integer" = "_value.#i" ∧
    literalDatatypeToPrimitivePredicate "http://www.w3.org/2001/XMLSchema#boolean" = "_value.?" ∧
    literalDatatypeToPrimitivePredicate "http://www.w3.org/2001/XMLSchema#double" = "_value.#" ∧
    literalDatatypeToPrimitivePredicate "http://www.w3.org/2001/XMLSchema#float" = "_value.#" ∧
    (dt ∉ (["http://www.w3.org/2001/XMLSchema#dateTime",
            "http://www.w3.org/2001/XMLSchema#date",
            "http://www.w3.org/2001/XMLSchema#int",
            "http://www.w3.org/2001/XMLSchema#positiveInteger",
            "http://www.w3.org/2001/XMLSchema#integer",
            "http://www.w3.org/2001/XMLSchema#boolean",
            "http://www.w3.org/2001/XMLSchema#double",
            "http://www.w3.org/2001/XMLSchema#float"] : List String) →
      literalDatatypeToPrimitivePredicate dt = "_value.%") := by
  refine ⟨rfl, by decide, by decide, by decide, by decide, by decide, by decide, by decide,
    by decide, ?_⟩
  intro h
  simp only [List.mem_cons, List.not_mem_nil, or_false, not_or] at h
  obtain ⟨n1, n2, n3, n4, n5, n6, n7, n8⟩ := h
  unfold literalDatatypeToPrimitivePredicate
  rw [if_neg (by tauto), if_neg (by tauto), if_neg (by tauto), if_neg (by tauto)]

/-- Witness for C5 at a concrete input: an unknown custom datatype goes to the
string slot. -/
theorem literal_write_value_slot_table_witness :
    literalDatatypeToPrimitivePredicate "urn:example#customType" = "_value.%" :=
  (literal_write_value_slot_table "Metadata0" "Metadata00" "entity" (Term.namedNode "urn:s")
    (Term.namedNode "urn:p") Term.defaultGraph "val" "urn:example#customType" "")
    |>.2.2.2.2.2.2.2.2.2 (by decide)

/-! ## Claim C8: the synthetic content-type quad of getMetadata -/

/-- C8: when the metadata decode yields at least one quad, `getMetadata` on a
non-container identifier returns metadata holding exactly one content-type
assertion quad on the identifier in addition to the decoded quads (every quad
that is not such an assertion is kept as decoded); on a container identifier it
returns exactly the decoded quads with no content-type quad added. -/
theorem getMetadata_contentType_assertion (identifier : String) (responseData : List JsObject)
    (h : rdfQuadsFromJsonArray responseData none none ≠ []) :
    (isContainerIdentifier identifier = false →
      ∀ m, getMetadata identifier responseData = Except.ok m →
        (m.quads.countP (fun q => isContentTypeQuadOn identifier q) = 1 ∧
         ∀ q, isContentTypeQuadOn identifier q = false →
           (q ∈ m.quads ↔ q ∈ rdfQuadsFromJsonArray responseData none none))) ∧
    (isContainerIdentifier identifier = true →
      getMetadata identifier responseData =
        Except.ok ⟨identifier, rdfQuadsFromJsonArray responseData none none⟩) := by
  have hlen : ¬ (rdfQuadsFromJsonArray responseData none none).length = 0 := by
    simpa [List.length_eq_zero] using h
  constructor
  · intro hcont m hm
    unfold getMetadata at hm
    rw [if_neg hlen, if_pos hcont] at hm
    have hmq : m = setContentType ⟨identifier, rdfQuadsFromJsonArray responseData none none⟩
        INTERNAL_QUADS := by
      exact (Except.ok.inj hm).symm
    subst hmq
    unfold setContentType
    constructor
    · simp only [List.countP_append]
      have h0 : List.countP (fun q => isContentTypeQuadOn identifier q)
          ((rdfQuadsFromJsonArray responseData none none).filter
            (fun q => !(isContentTypeQuadOn identifier q))) = 0 := by
        rw [List.countP_eq_zero]
        intro q hq
        have := (List.mem_filter.mp hq).2
        simp only [Bool.not_eq_true'] at this
        simp [this]
      rw [h0]
      simp [isContentTypeQuadOn]
    · intro q hq
      have hne : q ≠ ⟨Term.namedNode identifier, Term.namedNode CONTENT_TYPE,
          Term.literal INTERNAL_QUADS xsdString "", Term.defaultGraph⟩ := by
        intro he
        rw [he] at hq
        simp [isContentTypeQuadOn] at hq
      simp only [List.mem_append, List.mem_filter, List.mem_singleton]
      constructor
      · rintro (⟨hmem, -⟩ | heq)
        · exact hmem
        · exact absurd heq hne
      · intro hmem
        exact Or.inl ⟨hmem, by simp [hq]⟩
  · intro hcont
    unfold getMetadata
    rw [if_neg hlen, if_neg (by simp [hcont])]

/-- Witness for C8 at a concrete input: a one-quad response on a document
identifier. -/
theorem getMetadata_contentType_assertion_witness :
    ((setContentType ⟨"http://test.com/doc", rdfQuadsFromJsonArray
        [[("uri", JsValue.str "urn:s"), ("urn:p", JsValue.obj [("uri", JsValue.str "urn:o")])]]
        none none⟩ INTERNAL_QUADS).quads.countP
      (fun q => isContentTypeQuadOn "http://test.com/doc" q) = 1 ∧
     ∀ q, isContentTypeQuadOn "http://test.com/doc" q = false →
       (q ∈ (setContentType ⟨"http://test.com/doc", rdfQuadsFromJsonArray
          [[("uri", JsValue.str "urn:s"), ("urn:p", JsValue.obj [("uri", JsValue.str "urn:o")])]]
          none none⟩ INTERNAL_QUADS).quads ↔ q ∈ rdfQuadsFromJsonArray
         [[("uri", JsValue.str "urn:s"), ("urn:p", JsValue.obj [("uri", JsValue.str "urn:o")])]]
         none none)) :=
  (getMetadata_contentType_assertion "http://test.com/doc"
    [[("uri", JsValue.str "urn:s"), ("urn:p", JsValue.obj [("uri", JsValue.str "urn:o")])]]
    (by decide)).1 (by decide)
    (setContentType ⟨"http://test.com/doc", rdfQuadsFromJsonArray
      [[("uri", JsValue.str "urn:s"), ("urn:p", JsValue.obj [("uri", JsValue.str "urn:o")])]]
      none none⟩ INTERNAL_QUADS) rfl

/-! ## Claim C6: containment edge statements -/

/-- Two strings differ if any prefix of their character data differs. -/
theorem string_ne_of_take_ne (s t : String) (n : Nat) (h : s.data.take n ≠ t.data.take n) :
    s ≠ t :=
  fun he => h (by rw [he])

/-- Any string starting with the blank-node-template marker differs from the
containment-edge set statement. -/
theorem underscore_ne_containment (x : String) :
    "_:" ++ x ≠ "uid(entity) <container> uid(parent) ." := by
  apply string_ne_of_take_ne _ _ 1
  rw [String.data_append]
  rw [show "_:".data = ['_', ':'] from rfl]
  rw [show List.take 1 (['_', ':'] ++ x.data) = ['_'] from rfl]
  decide

/-- Any `uid(...)` statement whose variable starts with a character other than
'e' differs from the containment-edge set statement. -/
theorem uid_var_ne_containment (T rest : String) (c : Char) (t : List Char)
    (hT : T.data = c :: t) (hc : c ≠ 'e') :
    "uid(" ++ (T ++ rest) ≠ "uid(entity) <container> uid(parent) ." := by
  apply string_ne_of_take_ne _ _ 5
  rw [String.data_append, String.data_append, hT]
  rw [show "uid(".data = ['u', 'i', 'd', '('] from rfl]
  rw [show List.take 5 (['u', 'i', 'd', '('] ++ (c :: t ++ rest.data)) = ['u', 'i', 'd', '(', c]
    from rfl]
  rw [show List.take 5 "uid(entity) <container> uid(parent) .".data = ['u', 'i', 'd', '(', 'e']
    from rfl]
  simp [hc]

/-- The entity `uri` pin differs from the containment statement (they differ at
character 13). -/
theorem uri_pin_ne_containment (name : String) :
    "uid(entity) <uri> \"" ++ name ++ "\" ." ≠ "uid(entity) <container> uid(parent) ." := by
  apply string_ne_of_take_ne _ _ 14
  rw [String.data_append, String.data_append]
  rw [List.take_append_of_le_length
    (by rw [List.length_append, show "uid(entity) <uri> \"".data.length = 19 from rfl]; omega)]
  rw [List.take_append_of_le_length
    (by rw [show "uid(entity) <uri> \"".data.length = 19 from rfl]; omega)]
  decide

/-- No statement generated for a subject group is the containment-edge set
statement: group statements address either a blank-node template (`_:` prefix)
or a value-node variable named after the Dgraph type, which starts with a
character other than lowercase e. -/
theorem stmtsForGroup_snd_ne_containment (containerUidName dgraphType : String) (i : Nat)
    (group : List Quad) (c : Char) (t : List Char)
    (hT : dgraphType.data = c :: t) (hc : c ≠ 'e') :
    ∀ stmt ∈ (stmtsForGroup containerUidName dgraphType i group).2,
      stmt ≠ "uid(entity) <container> uid(parent) ." := by
  intro stmt hmem
  have hvar : ∀ rest : String,
      "uid(" ++ (dgraphType ++ rest) ≠ "uid(entity) <container> uid(parent) ." :=
    fun rest => uid_var_ne_containment dgraphType rest c t hT hc
  simp only [stmtsForGroup, List.mem_append, List.mem_cons, List.not_mem_nil, or_false,
    List.mem_flatMap, List.mem_map] at hmem
  rcases hmem with (hid | h1 | h2) | ⟨strs, ⟨ij, hij, hstr⟩, hs⟩
  · split at hid
    · split at hid <;>
        (rw [List.mem_singleton] at hid
         subst hid
         simp only [String.append_assoc]
         exact underscore_ne_containment _)
    · simp at hid
  · subst h1
    simp only [String.append_assoc]
    exact underscore_ne_containment _
  · subst h2
    simp only [String.append_assoc]
    exact underscore_ne_containment _
  · subst hstr
    unfold setStmtsForQuad at hs
    rcases hobj : ij.2.object with u | b | ⟨v, dtt, lg⟩ | _ <;>
      rw [hobj] at hs <;>
      simp only [List.mem_cons, List.not_mem_nil, or_false] at hs
    · rcases hs with h | h | h <;> subst h
      · simp only [String.append_assoc]
        exact underscore_ne_containment _
      · simp only [String.append_assoc]
        exact hvar _
      · simp only [String.append_assoc]
        exact hvar _
    · rcases hs with h | h | h | h <;> subst h
      · simp only [String.append_assoc]
        exact underscore_ne_containment _
      · simp only [String.append_assoc]
        exact hvar _
      · simp only [String.append_assoc]
        exact hvar _
      · simp only [String.append_assoc]
        exact hvar _
    · rcases hs with h | h | h | h <;> subst h
      · simp only [String.append_assoc]
        exact underscore_ne_containment _
      · simp only [String.append_assoc]
        exact hvar _
      · simp only [String.append_assoc]
        exact hvar _
      · simp only [String.append_assoc]
        exact hvar _

/-- No set statement of a data/metadata replacement section is the
containment-edge statement. -/
theorem section_snd_ne_containment (quads : List Quad) (dgraphType : String) (c : Char)
    (t : List Char) (hT : dgraphType.data = c :: t) (hc : c ≠ 'e') :
    ∀ stmt ∈ (setNQuadsAndQueriesForQuadsBySubjectInContainer quads "entity" dgraphType).2,
      stmt ≠ "uid(entity) <container> uid(parent) ." := by
  intro stmt hmem
  simp only [setNQuadsAndQueriesForQuadsBySubjectInContainer, List.mem_flatMap,
    List.mem_map] at hmem
  obtain ⟨strs, ⟨ig, hig, hstr⟩, hs⟩ := hmem
  subst hstr
  exact stmtsForGroup_snd_ne_containment "entity" dgraphType ig.1 ig.2 c t hT hc stmt hs

/-- C6: every upsert built for a write with a parent (a non-root identifier)
contains the set statement creating the containment edge from the entity
variable to the parent variable, the query block binding the parent variable to
the computed parent IRI and the statement pinning the parent `uri`; an upsert
built for a write without a parent (the root container) contains no
containment-edge statement at all.  `triples = none` is a container write and
`triples = some ts` a document write. -/
theorem upsert_containment_edge (name : String) (metadata : List Quad)
    (triples : Option (List Quad)) :
    (∀ p : String,
      "uid(entity) <container> uid(parent) ." ∈
        (sendDgraphUpsert name metadata (some p) triples).setNquads ∧
      entityUidVarQuery "parent" p ∈ (sendDgraphUpsert name metadata (some p) triples).queries ∧
      ("uid(parent) <uri> \"" ++ p ++ "\" .") ∈
        (sendDgraphUpsert name metadata (some p) triples).setNquads) ∧
    ("uid(entity) <container> uid(parent) ." ∉
      (sendDgraphUpsert name metadata none triples).setNquads) := by
  constructor
  · intro p
    refine ⟨?_, ?_, ?_⟩
    · simp [sendDgraphUpsert, List.mem_append]
    · simp [sendDgraphUpsert, replaceDataOfTypeInUidName, List.mem_append]
    · simp [sendDgraphUpsert, List.mem_append]
  · have hpair : ∀ q ∈ ["uid(entity) <uri> \"" ++ name ++ "\" .",
        "uid(entity) <dgraph.type> \"Entity\" ."],
        q ≠ "uid(entity) <container> uid(parent) ." := by
      intro q hq
      simp only [List.mem_cons, List.not_mem_nil, or_false] at hq
      rcases hq with h | h
      · subst h
        exact uri_pin_ne_containment name
      · subst h
        decide
    rcases triples with - | ts
    · intro hmem
      simp only [sendDgraphUpsert, replaceDataOfTypeInUidName] at hmem
      rcases List.mem_append.mp hmem with h | hdp
      · rcases List.mem_append.mp h with h | hpp
        · rcases List.mem_append.mp h with h2 | hmd
          · exact hpair _ h2 rfl
          · exact (section_snd_ne_containment metadata "Metadata" 'M' "etadata".data rfl
              (by decide) _ hmd) rfl
        · exact absurd hpp (by simp)
      · exact absurd hdp (by simp)
    · intro hmem
      simp only [sendDgraphUpsert, replaceDataOfTypeInUidName] at hmem
      rcases List.mem_append.mp hmem with h | hdp
      · rcases List.mem_append.mp h with h | hpp
        · rcases List.mem_append.mp h with h2 | hmd
          · exact hpair _ h2 rfl
          · exact (section_snd_ne_containment metadata "Metadata" 'M' "etadata".data rfl
              (by decide) _ hmd) rfl
        · exact absurd hpp (by simp)
      · exact (section_snd_ne_containment ts "EntityData" 'E' "ntityData".data rfl
          (by decide) _ hdp) rfl

/-! ## Claim C9: grouping by subject and iteration order -/

/-- Lookup after a push: the pushed key gains `a` at the end of its group (an
absent key starts a fresh singleton group); other keys are untouched. -/
theorem recLookup_jsRecordPush {α : Type} (r : List (String × List α)) (k k' : String) (a : α) :
    recLookup (jsRecordPush r k a) k' =
      if k' = k then some ((recLookup r k).getD [] ++ [a]) else recLookup r k' := by
  induction r with
  | nil =>
      simp only [jsRecordPush, recLookup]
      by_cases h : k' = k
      · subst h
        rw [if_pos rfl, if_pos rfl]
        rfl
      · rw [if_neg (fun he => h he.symm), if_neg h]
  | cons kv rest ih =>
      obtain ⟨k₀, vs⟩ := kv
      by_cases h0 : k₀ = k
      · subst h0
        simp only [jsRecordPush, if_pos rfl, recLookup]
        by_cases h' : k' = k₀
        · subst h'
          simp
        · rw [if_neg (fun he => h' he.symm), if_neg h', if_neg (fun he => h' he.symm)]
      · simp only [jsRecordPush, if_neg h0, recLookup]
        by_cases h' : k₀ = k'
        · subst h'
          rw [if_pos rfl, if_neg (fun he : k₀ = k => h0 he), if_pos rfl]
        · simp only [if_neg h']
          exact ih

/-- Keys after a push: an existing key leaves the key list unchanged, a new key
is appended. -/
theorem keys_jsRecordPush {α : Type} (r : List (String × List α)) (k : String) (a : α) :
    (jsRecordPush r k a).map Prod.fst =
      if k ∈ r.map Prod.fst then r.map Prod.fst else r.map Prod.fst ++ [k] := by
  induction r with
  | nil => simp [jsRecordPush]
  | cons kv rest ih =>
      obtain ⟨k₀, vs⟩ := kv
      by_cases h0 : k₀ = k
      · subst h0
        simp [jsRecordPush]
      · simp only [jsRecordPush, if_neg h0, List.map_cons, List.mem_cons]
        rw [ih]
        by_cases hk : k ∈ rest.map Prod.fst
        · rw [if_pos hk, if_pos (Or.inr hk)]
        · rw [if_neg hk, if_neg ?_]
          · rfl
          · rintro (he | hmem)
            · exact h0 he.symm
            · exact hk hmem

/-- Characterization of grouping: looking up `k` in the grouped record yields
exactly the sublist of elements keyed `k`, in their original relative order. -/
theorem recLookup_groupByStringKey {α : Type} (key : α → String) (l : List α) (k : String) :
    recLookup (groupByStringKey key l) k =
      if l.any (fun a => key a == k) then some (l.filter (fun a => key a == k)) else none := by
  suffices h : ∀ r : List (String × List α),
      recLookup (l.foldl (fun r a => jsRecordPush r (key a) a) r) k =
        match recLookup r k with
        | some vs => some (vs ++ l.filter (fun a => key a == k))
        | none =>
            if l.any (fun a => key a == k) then some (l.filter (fun a => key a == k)) else none by
    have h2 := h []
    simpa [groupByStringKey, recLookup] using h2
  induction l with
  | nil =>
      intro r
      cases hr : recLookup r k <;> simp [hr]
  | cons a l ih =>
      intro r
      simp only [List.foldl_cons]
      rw [ih (jsRecordPush r (key a) a), recLookup_jsRecordPush]
      by_cases hkeq : key a = k
      · have hb : (key a == k) = true := beq_iff_eq.mpr hkeq
        rw [if_pos hkeq.symm, hkeq]
        cases hr : recLookup r k with
        | some vs => simp [hr, List.filter_cons, hb]
        | none => simp [hr, List.filter_cons, List.any_cons, hb]
      · have hb : (key a == k) = false := by simp [hkeq]
        rw [if_neg (fun he => hkeq he.symm)]
        cases hr : recLookup r k with
        | some vs => simp [hr, List.filter_cons, hb]
        | none => simp [hr, List.filter_cons, List.any_cons, hb]

/-- First-appearance deduplication of a key list (the key creation order of a
plain JS object fed by repeated pushes). -/
def dedupFirstOccurrence (l : List String) : List String :=
  l.foldl (fun acc k => if k ∈ acc then acc else acc ++ [k]) []

/-- The key list of the grouped record is the deduplicated key image, first
occurrences in order. -/
theorem keys_groupByStringKey {α : Type} (key : α → String) (l : List α) :
    (groupByStringKey key l).map Prod.fst = dedupFirstOccurrence (l.map key) := by
  suffices h : ∀ r : List (String × List α),
      (l.foldl (fun r a => jsRecordPush r (key a) a) r).map Prod.fst =
        l.foldl (fun acc a => if key a ∈ acc then acc else acc ++ [key a]) (r.map Prod.fst) by
    rw [groupByStringKey, h [], dedupFirstOccurrence, List.foldl_map]
    rfl
  induction l with
  | nil => intro r; rfl
  | cons a l ih =>
      intro r
      simp only [List.foldl_cons]
      rw [ih, keys_jsRecordPush]

/-- The deduplication fold keeps the accumulator without duplicates. -/
theorem nodup_dedup_fold (l : List String) :
    ∀ acc : List String, acc.Nodup →
      (l.foldl (fun acc k => if k ∈ acc then acc else acc ++ [k]) acc).Nodup := by
  induction l with
  | nil => intro acc h; exact h
  | cons a l ih =>
      intro acc h
      simp only [List.foldl_cons]
      by_cases hm : a ∈ acc
      · rw [if_pos hm]
        exact ih acc h
      · rw [if_neg hm]
        refine ih _ ?_
        simp [List.nodup_append, h, hm]

/-- The grouped record has pairwise distinct keys. -/
theorem nodup_keys_groupByStringKey {α : Type} (key : α → String) (l : List α) :
    ((groupByStringKey key l).map Prod.fst).Nodup := by
  rw [keys_groupByStringKey]
  exact nodup_dedup_fold _ [] List.nodup_nil

/-- In a record with pairwise distinct keys, membership of an entry is the same
as a successful lookup. -/
theorem mem_iff_recLookup {α : Type} (r : List (String × List α))
    (hnd : (r.map Prod.fst).Nodup) (k : String) (g : List α) :
    (k, g) ∈ r ↔ recLookup r k = some g := by
  induction r with
  | nil => simp [recLookup]
  | cons kv rest ih =>
      obtain ⟨k₀, vs⟩ := kv
      simp only [List.map_cons, List.nodup_cons] at hnd
      by_cases hk : k₀ = k
      · subst hk
        simp only [recLookup, if_pos rfl, List.mem_cons]
        constructor
        · rintro (he | hmem)
          · injection he with h1 h2
            subst h2
            simp
          · exact absurd (List.mem_map.mpr ⟨(k₀, g), hmem, rfl⟩) hnd.1
        · intro he
          exact Or.inl (by rw [Option.some.inj he])
      · simp only [recLookup, if_neg hk, List.mem_cons]
        rw [← ih hnd.2]
        constructor
        · rintro (he | hmem)
          · exact absurd (congrArg Prod.fst he).symm hk
          · exact hmem
        · exact Or.inr

/-- Auxiliary: filterMap respects pointwise-equal functions. -/
theorem filterMap_congr_mem {α β : Type} (l : List α) (f g : α → Option β)
    (h : ∀ a ∈ l, f a = g a) : l.filterMap f = l.filterMap g := by
  induction l with
  | nil => rfl
  | cons a l ih =>
      simp only [List.filterMap_cons, h a (List.mem_cons_self a l)]
      rw [ih (fun x hx => h x (List.mem_cons_of_mem a hx))]

/-- Looking the keys of a nodup-keyed record back up returns the groups in
record order. -/
theorem filterMap_recLookup_self {α : Type} (r : List (String × List α))
    (hnd : (r.map Prod.fst).Nodup) :
    (r.map Prod.fst).filterMap (recLookup r) = r.map Prod.snd := by
  induction r with
  | nil => rfl
  | cons kv rest ih =>
      obtain ⟨k₀, vs⟩ := kv
      simp only [List.map_cons, List.nodup_cons] at hnd
      simp only [List.map_cons, List.filterMap_cons]
      rw [show recLookup ((k₀, vs) :: rest) k₀ = some vs from by simp [recLookup]]
      congr 1
      rw [filterMap_congr_mem (rest.map Prod.fst) _ (recLookup rest) ?_, ih hnd.2]
      intro k hk
      have hne : ¬ k₀ = k := fun he => hnd.1 (he ▸ hk)
      simp [recLookup, hne]

/-- With no canonical array-index key, `Object.values` returns the groups in
key insertion order. -/
theorem jsRecordValues_of_no_numeric {α : Type} (r : List (String × List α))
    (hnd : (r.map Prod.fst).Nodup)
    (h : ∀ k ∈ r.map Prod.fst, isArrayIndex k = false) :
    jsRecordValues r = r.map Prod.snd := by
  unfold jsRecordValues jsOrderedKeys
  have h1 : (r.map Prod.fst).filter isArrayIndex = [] := by
    rw [List.filter_eq_nil]
    intro k hk
    simp [h k hk]
  have h2 : (r.map Prod.fst).filter (fun k => !(isArrayIndex k)) = r.map Prod.fst := by
    rw [List.filter_eq_self]
    intro k hk
    simp [h k hk]
  rw [h1, h2, show sortByNumericValue [] = [] from rfl, List.nil_append]
  exact filterMap_recLookup_self r hnd

/-- If every group equals a function of its key, the value list is the image of
the key list. -/
theorem map_snd_eq_map_of_entries {α : Type} (r : List (String × List α))
    (f : String → List α) (h : ∀ kg ∈ r, kg.2 = f kg.1) :
    r.map Prod.snd = (r.map Prod.fst).map f := by
  induction r with
  | nil => rfl
  | cons kv rest ih =>
      simp only [List.map_cons]
      rw [h kv (List.mem_cons_self kv rest),
        ih (fun kg hm => h kg (List.mem_cons_of_mem kv hm))]

/-- The specification-side ordering: the quad groups by subject value, iterated
in order of the first appearance of each subject value in the input. -/
def groupsInFirstAppearanceOrder (quads : List Quad) : List (List Quad) :=
  (dedupFirstOccurrence (quads.map (fun q => q.subject.value))).map
    (fun k => quads.filter (fun q => q.subject.value == k))

/-- C9 (amended): `groupQuadsBySubject` partitions the quads by subject value,
each group holding exactly the quads with that subject value in their original
relative order; and - provided no subject value is a canonical array-index
string - the groups are iterated by `Object.values` in order of first
appearance of each subject value.  (Array-index subject values are instead
hoisted to the front in ascending numeric order; see the counterexample.) -/
theorem groupQuadsBySubject_partition_and_order (quads : List Quad)
    (h : ∀ q ∈ quads, isArrayIndex q.subject.value = false) :
    (∀ k g, (k, g) ∈ groupQuadsBySubject quads →
      g = quads.filter (fun q => q.subject.value == k)) ∧
    jsRecordValues (groupQuadsBySubject quads) = groupsInFirstAppearanceOrder quads := by
  have hnd : ((groupQuadsBySubject quads).map Prod.fst).Nodup :=
    nodup_keys_groupByStringKey (fun q : Quad => q.subject.value) quads
  have hpart : ∀ k g, (k, g) ∈ groupQuadsBySubject quads →
      g = quads.filter (fun q => q.subject.value == k) := by
    intro k g hm
    have hl := (mem_iff_recLookup _ hnd k g).mp hm
    unfold groupQuadsBySubject at hl
    rw [recLookup_groupByStringKey] at hl
    by_cases ha : quads.any (fun q => q.subject.value == k)
    · rw [if_pos ha] at hl
      exact (Option.some.inj hl).symm
    · rw [if_neg ha] at hl
      exact absurd hl (by simp)
  refine ⟨hpart, ?_⟩
  have hkeysnum : ∀ k ∈ (groupQuadsBySubject quads).map Prod.fst, isArrayIndex k = false := by
    intro k hk
    obtain ⟨⟨k', g⟩, hm, hfst⟩ := List.mem_map.mp hk
    rcases hfst
    have hl := (mem_iff_recLookup _ hnd k' g).mp hm
    unfold groupQuadsBySubject at hl
    rw [recLookup_groupByStringKey] at hl
    by_cases ha : quads.any (fun q => q.subject.value == k')
    · obtain ⟨q, hq, hbeq⟩ := List.any_eq_true.mp ha
      have : q.subject.value = k' := beq_iff_eq.mp hbeq
      rw [← this]
      exact h q hq
    · rw [if_neg ha] at hl
      exact absurd hl (by simp)
  rw [jsRecordValues_of_no_numeric _ hnd hkeysnum]
  rw [map_snd_eq_map_of_entries _ (fun k => quads.filter (fun q => q.subject.value == k))
    (fun kg hm => hpart kg.1 kg.2 hm)]
  rw [show (groupQuadsBySubject quads) = groupByStringKey (fun q : Quad => q.subject.value) quads
    from rfl]
  rw [keys_groupByStringKey]
  rfl

/-- Witness for C9 (amended) at a concrete input: IRI subjects keep
first-appearance order. -/
theorem groupQuadsBySubject_partition_and_order_witness :
    jsRecordValues (groupQuadsBySubject
      [⟨Term.namedNode "urn:b", Term.namedNode "urn:p", Term.namedNode "urn:o", Term.defaultGraph⟩,
       ⟨Term.namedNode "urn:a", Term.namedNode "urn:p", Term.namedNode "urn:o", Term.defaultGraph⟩,
       ⟨Term.namedNode "urn:b", Term.namedNode "urn:q", Term.namedNode "urn:o", Term.defaultGraph⟩]) =
    groupsInFirstAppearanceOrder
      [⟨Term.namedNode "urn:b", Term.namedNode "urn:p", Term.namedNode "urn:o", Term.defaultGraph⟩,
       ⟨Term.namedNode "urn:a", Term.namedNode "urn:p", Term.namedNode "urn:o", Term.defaultGraph⟩,
       ⟨Term.namedNode "urn:b", Term.namedNode "urn:q", Term.namedNode "urn:o", Term.defaultGraph⟩] :=
  (groupQuadsBySubject_partition_and_order _ (by decide)).2

/-- C9 counterexample: with the blank-node labels "1" and "0" as subject values
(canonical array-index property names), `Object.values` enumerates the groups
in ascending numeric key order, not in first-appearance order, refuting the
iteration-order part of the claim as stated. -/
theorem groupQuadsBySubject_order_counterexample :
    jsRecordValues (groupQuadsBySubject
      [⟨Term.blankNode "1", Term.namedNode "urn:p", Term.namedNode "urn:o", Term.defaultGraph⟩,
       ⟨Term.blankNode "0", Term.namedNode "urn:p", Term.namedNode "urn:o", Term.defaultGraph⟩]) =
      [[⟨Term.blankNode "0", Term.namedNode "urn:p", Term.namedNode "urn:o", Term.defaultGraph⟩],
       [⟨Term.blankNode "1", Term.namedNode "urn:p", Term.namedNode "urn:o", Term.defaultGraph⟩]] ∧
    groupsInFirstAppearanceOrder
      [⟨Term.blankNode "1", Term.namedNode "urn:p", Term.namedNode "urn:o", Term.defaultGraph⟩,
       ⟨Term.blankNode "0", Term.namedNode "urn:p", Term.namedNode "urn:o", Term.defaultGraph⟩] =
      [[⟨Term.blankNode "1", Term.namedNode "urn:p", Term.namedNode "urn:o", Term.defaultGraph⟩],
       [⟨Term.blankNode "0", Term.namedNode "urn:p", Term.namedNode "urn:o", Term.defaultGraph⟩]] ∧
    jsRecordValues (groupQuadsBySubject
      [⟨Term.blankNode "1", Term.namedNode "urn:p", Term.namedNode "urn:o", Term.defaultGraph⟩,
       ⟨Term.blankNode "0", Term.namedNode "urn:p", Term.namedNode "urn:o", Term.defaultGraph⟩]) ≠
      groupsInFirstAppearanceOrder
      [⟨Term.blankNode "1", Term.namedNode "urn:p", Term.namedNode "urn:o", Term.defaultGraph⟩,
       ⟨Term.blankNode "0", Term.namedNode "urn:p", Term.namedNode "urn:o", Term.defaultGraph⟩] :=
  ⟨by decide, by decide, by decide⟩

/-! ## Claim C4: bounded wait of the initialization guard -/

/-- A flag schedule where an initialization stays in progress forever. -/
def alwaysInitializing : Nat → Bool × Bool := fun _ => (false, true)

/-- With an initialization permanently in progress, a caller entering at wait
time `w` (a multiple of the 10 ms check period, at most 1510) sleeps a total of
`1510 - w` ms and then throws the fixed initialization-failure error. -/
theorem ensure_always_initializing :
    ∀ n w, 1510 - w ≤ n → w % 10 = 0 → w ≤ 1510 →
      ensureClientIsInitialized alwaysInitializing w =
        (InitOutcome.throwsInitError "Failed to initialize Dgraph database.", 1510 - w) := by
  intro n
  induction n with
  | zero =>
      intro w h1 h2 h3
      have hw : w = 1510 := by omega
      subst hw
      unfold ensureClientIsInitialized
      rw [if_neg (by simp [alwaysInitializing])]
      rw [dif_neg (by simp [alwaysInitializing, MAX_INITIALIZATION_TIMEOUT_DURATION])]
      rw [if_pos (by simp [alwaysInitializing])]
  | succ n ih =>
      intro w h1 h2 h3
      by_cases hw : w ≤ 1500
      · unfold ensureClientIsInitialized
        rw [if_neg (by simp [alwaysInitializing])]
        rw [dif_pos ⟨rfl, rfl, by simpa [MAX_INITIALIZATION_TIMEOUT_DURATION] using hw⟩]
        rw [show INITIALIZATION_CHECK_PERIOD = 10 from rfl]
        rw [ih (w + 10) (by omega) (by omega) (by omega)]
        refine Prod.ext rfl ?_
        simp only
        omega
      · have hw2 : w = 1510 := by omega
        subst hw2
        unfold ensureClientIsInitialized
        rw [if_neg (by simp [alwaysInitializing])]
        rw [dif_neg (by simp [alwaysInitializing, MAX_INITIALIZATION_TIMEOUT_DURATION])]
        rw [if_pos (by simp [alwaysInitializing])]

/-- A schedule where the first initialization fails (both flags cleared) while
the caller is in its first 10 ms sleep. -/
def initFailsWhilePolling : Nat → Bool × Bool :=
  fun w => if w = 0 then (false, true) else (false, false)

/-- C4 counterexample: the claim's 1500 ms bound on total wait is exceeded (the
guard recurses while `waitTime ≤ 1500`, so a caller that entered while an
initialization was in progress sleeps 151 periods = 1510 ms before throwing);
and a polling caller does itself start an initialization when the first
initialization fails mid-wait, refuting the never-starts-a-second-init part as
stated. -/
theorem ensureClientIsInitialized_wait_counterexample :
    ensureClientIsInitialized alwaysInitializing 0 =
      (InitOutcome.throwsInitError "Failed to initialize Dgraph database.", 1510) ∧
    MAX_INITIALIZATION_TIMEOUT_DURATION < (ensureClientIsInitialized alwaysInitializing 0).2 ∧
    ensureClientIsInitialized initFailsWhilePolling 0 = (InitOutcome.startsInit 10, 10) := by
  have h0 := ensure_always_initializing 1510 0 (by omega) (by omega) (by omega)
  refine ⟨h0, ?_, ?_⟩
  · rw [h0]
    simp [MAX_INITIALIZATION_TIMEOUT_DURATION]
  · unfold ensureClientIsInitialized
    rw [if_neg (by simp [initFailsWhilePolling])]
    rw [dif_pos ⟨by simp [initFailsWhilePolling], by simp [initFailsWhilePolling],
      by simp [MAX_INITIALIZATION_TIMEOUT_DURATION]⟩]
    unfold ensureClientIsInitialized
    rw [if_pos (by simp [initFailsWhilePolling, INITIALIZATION_CHECK_PERIOD])]
    rfl

/-- C4 (amended): for any flag schedule, a caller entering at wait time 0 while
an initialization is in progress sleeps at most 1510 ms in total (the 1500 ms
threshold plus one final 10 ms period); when it throws, the message is exactly
"Failed to initialize Dgraph database."; it only starts an initialization
itself at a check where no initialization is in progress and the client is
uninitialized (as after a failed initialization); and it only proceeds at a
check where the client is initialized. -/
theorem ensureClientIsInitialized_bounded_wait (flags : Nat → Bool × Bool)
    (hstart : flags 0 = (false, true)) :
    (ensureClientIsInitialized flags 0).2 ≤
      MAX_INITIALIZATION_TIMEOUT_DURATION + INITIALIZATION_CHECK_PERIOD ∧
    (∀ msg, (ensureClientIsInitialized flags 0).1 = InitOutcome.throwsInitError msg →
      msg = "Failed to initialize Dgraph database.") ∧
    (∀ w', (ensureClientIsInitialized flags 0).1 = InitOutcome.startsInit w' →
      flags w' = (false, false)) ∧
    (∀ w', (ensureClientIsInitialized flags 0).1 = InitOutcome.proceeds w' →
      (flags w').1 = true) := by
  have key : ∀ n w, 1510 - w ≤ n → w ≤ 1510 →
      (ensureClientIsInitialized flags w).2 + w ≤ 1510 ∧
      (∀ msg, (ensureClientIsInitialized flags w).1 = InitOutcome.throwsInitError msg →
        msg = "Failed to initialize Dgraph database.") ∧
      (∀ w', (ensureClientIsInitialized flags w).1 = InitOutcome.startsInit w' →
        flags w' = (false, false)) ∧
      (∀ w', (ensureClientIsInitialized flags w).1 = InitOutcome.proceeds w' →
        (flags w').1 = true) := by
    intro n
    induction n with
    | zero =>
        intro w h1 h2
        have hw : w = 1510 := by omega
        subst hw
        unfold ensureClientIsInitialized
        by_cases hc1 : (flags 1510).1 = false ∧ (flags 1510).2 = false
        · rw [if_pos hc1]
          refine ⟨by omega, by simp, ?_, by simp⟩
          intro w' hw'
          have : w' = 1510 := by
            have := InitOutcome.startsInit.inj hw'.symm
            omega
          subst this
          exact Prod.ext hc1.1 hc1.2
        · rw [if_neg hc1]
          rw [dif_neg (by
            rintro ⟨-, -, hle⟩
            simp [MAX_INITIALIZATION_TIMEOUT_DURATION] at hle)]
          by_cases hc3 : (flags 1510).1 = false
          · rw [if_pos hc3]
            refine ⟨by omega, ?_, by simp, by simp⟩
            intro msg hmsg
            exact (InitOutcome.throwsInitError.inj hmsg).symm
          · rw [if_neg hc3]
            refine ⟨by omega, by simp, by simp, ?_⟩
            intro w' hw'
            have hweq : w' = 1510 := (InitOutcome.proceeds.inj hw').symm
            subst hweq
            simpa using hc3
    | succ n ih =>
        intro w h1 h2
        unfold ensureClientIsInitialized
        by_cases hc1 : (flags w).1 = false ∧ (flags w).2 = false
        · rw [if_pos hc1]
          refine ⟨by omega, by simp, ?_, by simp⟩
          intro w' hw'
          have : w' = w := (InitOutcome.startsInit.inj hw').symm
          subst this
          exact Prod.ext hc1.1 hc1.2
        · rw [if_neg hc1]
          by_cases hc2 : (flags w).1 = false ∧ (flags w).2 = true ∧
              w ≤ MAX_INITIALIZATION_TIMEOUT_DURATION
          · rw [dif_pos hc2]
            have hw1500 : w ≤ 1500 := by
              simpa [MAX_INITIALIZATION_TIMEOUT_DURATION] using hc2.2.2
            have hrec := ih (w + INITIALIZATION_CHECK_PERIOD)
              (by simp [INITIALIZATION_CHECK_PERIOD]; omega)
              (by simp [INITIALIZATION_CHECK_PERIOD]; omega)
            refine ⟨?_, hrec.2.1, hrec.2.2.1, hrec.2.2.2⟩
            have := hrec.1
            simp only [INITIALIZATION_CHECK_PERIOD] at *
            omega
          · rw [dif_neg hc2]
            by_cases hc3 : (flags w).1 = false
            · rw [if_pos hc3]
              refine ⟨by omega, ?_, by simp, by simp⟩
              intro msg hmsg
              exact (InitOutcome.throwsInitError.inj hmsg).symm
            · rw [if_neg hc3]
              refine ⟨by omega, by simp, by simp, ?_⟩
              intro w' hw'
              have hweq : w' = w := (InitOutcome.proceeds.inj hw').symm
              subst hweq
              simpa using hc3
  have h := key 1510 0 (by omega) (by omega)
  refine ⟨?_, h.2.1, h.2.2.1, h.2.2.2⟩
  have := h.1
  simp only [MAX_INITIALIZATION_TIMEOUT_DURATION, INITIALIZATION_CHECK_PERIOD]
  omega

/-- Witness for C4 (amended) at a concrete input: an initialization that
completes at the second check lets the caller proceed after one sleep. -/
theorem ensureClientIsInitialized_bounded_wait_witness :
    (ensureClientIsInitialized (fun w => if w = 0 then (false, true) else (true, false)) 0).2 ≤
      MAX_INITIALIZATION_TIMEOUT_DURATION + INITIALIZATION_CHECK_PERIOD :=
  (ensureClientIsInitialized_bounded_wait
    (fun w => if w = 0 then (false, true) else (true, false)) (by simp)).1

/-! ## Claim C10: distinctness of declared query-variable names -/

/-- The variable name a Dgraph query block declares: its text up to the first
space (every block built here is `name ++ " as var(...)"`). -/
def firstToken (s : String) : String :=
  ⟨s.data.takeWhile (fun c => !(c == ' '))⟩

/-- takeWhile runs past a prefix every element of which satisfies the
predicate. -/
theorem takeWhile_append_all {α : Type} (p : α → Bool) (l1 l2 : List α) (h : l1.all p = true) :
    (l1 ++ l2).takeWhile p = l1 ++ l2.takeWhile p := by
  induction l1 with
  | nil => simp
  | cons a t ih =>
      simp only [List.all_cons, Bool.and_eq_true] at h
      simp [List.takeWhile_cons, h.1, ih h.2]

/-- The first token of `n ++ rest` is `n` when `n` has no space and `rest`
starts with one. -/
theorem firstToken_append (n rest : String)
    (hn : n.data.all (fun c => !(c == ' ')) = true)
    (hr : rest.data.head? = some ' ') :
    firstToken (n ++ rest) = n := by
  unfold firstToken
  rw [String.data_append, takeWhile_append_all _ _ _ hn]
  cases hd : rest.data with
  | nil => rw [hd] at hr; simp at hr
  | cons c tl =>
      rw [hd] at hr
      have hc : c = ' ' := by simpa using hr
      subst hc
      rw [show List.takeWhile (fun c => !(c == ' ')) (' ' :: tl) = [] from by
        simp [List.takeWhile_cons]]
      rw [List.append_nil]

/-- The head of an appended string is the head of its nonempty prefix. -/
theorem head_space_append (l1 X : String) (tl : List Char) (h : l1.data = ' ' :: tl) :
    (l1 ++ X).data.head? = some ' ' := by
  rw [String.data_append, h]
  rfl

/-- The entity query block declares exactly its uid name. -/
theorem firstToken_entityUidVarQuery (n uri : String)
    (hn : n.data.all (fun c => !(c == ' ')) = true) :
    firstToken (entityUidVarQuery n uri) = n := by
  unfold entityUidVarQuery
  simp only [String.append_assoc]
  exact firstToken_append n _ hn (head_space_append _ _
    ("as var(func: eq(<uri>, \"" : String).data rfl)

/-- The literal deduplication query block declares exactly its uid name. -/
theorem firstToken_literalUidVarQuery (n key value language datatype : String)
    (hn : n.data.all (fun c => !(c == ' ')) = true) :
    firstToken (literalUidVarQuery n key value language datatype) = n := by
  unfold literalUidVarQuery
  simp only [String.append_assoc]
  exact firstToken_append n _ hn (head_space_append _ _
    ("as var(func: eq(<" : String).data rfl)

/-- The blank-node query block declares exactly its uid name. -/
theorem firstToken_blankNodeUidVarQuery (n containerUidName blankNodeName : String)
    (hn : n.data.all (fun c => !(c == ' ')) = true) :
    firstToken (blankNodeUidVarQuery n containerUidName blankNodeName) = n := by
  unfold blankNodeUidVarQuery
  simp only [String.append_assoc]
  exact firstToken_append n _ hn (head_space_append _ _
    ("as var(func: eq(<blankNode>, \"" : String).data rfl)

/-- The per-quad uid variable name `dgraphType ++ i ++ j` from the source
template. -/
def uidVarName (dgraphType : String) (i j : Nat) : String :=
  (dgraphType ++ Nat.repr i) ++ Nat.repr j

/-- All per-quad variable names a section could declare, one per (subject
index, quad index) position. -/
def fullVarNames (dgraphType : String) (quads : List Quad) : List String :=
  (jsRecordValues (groupQuadsBySubject quads)).enum.flatMap
    (fun ig => ig.2.enum.map (fun jq => uidVarName dgraphType ig.1 jq.1))

/-- Decimal digits of naturals below ten. -/
theorem repr_digit (i : Nat) (h : i < 10) : (Nat.repr i).data = [Nat.digitChar i] := by
  interval_cases i <;> rfl

/-- Digit characters are distinct below ten. -/
theorem digitChar_inj : ∀ i < 10, ∀ j < 10, Nat.digitChar i = Nat.digitChar j → i = j := by
  decide

/-- Below ten subjects and ten quads per subject, the uid variable name
determines the subject and quad index. -/
theorem uidVarName_inj (T : String) (i j i' j' : Nat) (hi : i < 10) (hj : j < 10)
    (hi' : i' < 10) (hj' : j' < 10)
    (he : uidVarName T i j = uidVarName T i' j') : i = i' ∧ j = j' := by
  have hd := congrArg String.data he
  rw [uidVarName, uidVarName, String.data_append, String.data_append, String.data_append,
    String.data_append, repr_digit i hi, repr_digit j hj, repr_digit i' hi',
    repr_digit j' hj', List.append_assoc, List.append_assoc] at hd
  have h2 := List.append_cancel_left hd
  have h3 : Nat.digitChar i = Nat.digitChar i' ∧ Nat.digitChar j = Nat.digitChar j' := by
    constructor
    · exact List.head_eq_of_cons_eq h2
    · have := List.tail_eq_of_cons_eq h2
      exact List.head_eq_of_cons_eq this
  exact ⟨digitChar_inj i hi i' hi' h3.1, digitChar_inj j hj j' hj' h3.2⟩

/-- Every full variable name starts with the head character of its Dgraph
type. -/
theorem mem_fullVarNames_head (T : String) (quads : List Quad) (c : Char) (t : List Char)
    (hT : T.data = c :: t) :
    ∀ x ∈ fullVarNames T quads, x.data.head? = some c := by
  intro x hx
  simp only [fullVarNames, List.mem_flatMap, List.mem_map] at hx
  obtain ⟨ig, -, jq, -, rfl⟩ := hx
  rw [uidVarName, String.data_append, String.data_append, hT]
  rfl

/-- Two strings with different head characters differ. -/
theorem string_ne_of_head (s t : String) (h : s.data.head? ≠ t.data.head?) : s ≠ t :=
  fun he => h (by rw [he])

/-- Below the bounds, the full variable-name lists are duplicate-free. -/
theorem fullVarNames_nodup (T : String) (quads : List Quad)
    (hg : (jsRecordValues (groupQuadsBySubject quads)).length ≤ 10)
    (hgl : ∀ g ∈ jsRecordValues (groupQuadsBySubject quads), g.length ≤ 10) :
    (fullVarNames T quads).Nodup := by
  unfold fullVarNames
  rw [List.nodup_flatMap]
  constructor
  · intro ig hig
    have hi : ig.1 < 10 := lt_of_lt_of_le (List.fst_lt_of_mem_enum hig) hg
    have hgmem := List.snd_mem_of_mem_enum hig
    refine List.Nodup.map_on ?_ ((List.nodup_enum_map_fst ig.2).of_map Prod.fst)
    intro jq hjq jq' hjq' he
    have hj : jq.1 < 10 := lt_of_lt_of_le (List.fst_lt_of_mem_enum hjq) (hgl _ hgmem)
    have hj' : jq'.1 < 10 := lt_of_lt_of_le (List.fst_lt_of_mem_enum hjq') (hgl _ hgmem)
    have hfe := (uidVarName_inj T ig.1 jq.1 ig.1 jq'.1 hi hj hi hj' he).2
    exact List.inj_on_of_nodup_map (List.nodup_enum_map_fst ig.2) hjq hjq' hfe
  · have hfst : (jsRecordValues (groupQuadsBySubject quads)).enum.Pairwise
        (fun a b => a.1 ≠ b.1) :=
      List.pairwise_map.mp (List.nodup_enum_map_fst _)
    refine List.Pairwise.imp_of_mem ?_ hfst
    intro ig ig' hig hig' hne
    intro x hx hx'
    simp only [List.mem_map] at hx hx'
    obtain ⟨jq, hjq, rfl⟩ := hx
    obtain ⟨jq', hjq', he⟩ := hx'
    have hi : ig.1 < 10 := lt_of_lt_of_le (List.fst_lt_of_mem_enum hig) hg
    have hi' : ig'.1 < 10 := lt_of_lt_of_le (List.fst_lt_of_mem_enum hig') hg
    have hj : jq.1 < 10 :=
      lt_of_lt_of_le (List.fst_lt_of_mem_enum hjq) (hgl _ (List.snd_mem_of_mem_enum hig))
    have hj' : jq'.1 < 10 :=
      lt_of_lt_of_le (List.fst_lt_of_mem_enum hjq') (hgl _ (List.snd_mem_of_mem_enum hig'))
    exact hne (uidVarName_inj T ig'.1 jq'.1 ig.1 jq.1 hi' hj' hi hj he).1.symm

/-- A flatMap is a sublist of another flatMap with pointwise sublists. -/
theorem flatMap_sublist {α β : Type} (l : List α) (f g : α → List β)
    (h : ∀ a ∈ l, (f a).Sublist (g a)) :
    (l.flatMap f).Sublist (l.flatMap g) := by
  induction l with
  | nil => simp
  | cons a t ih =>
      simp only [List.flatMap_cons]
      exact (h a (List.mem_cons_self a t)).append
        (ih (fun x hx => h x (List.mem_cons_of_mem a hx)))

/-- A flatMap of sub-singletons is a sublist of the corresponding map. -/
theorem flatMap_sublist_map {α β : Type} (l : List α) (f : α → List β) (g : α → β)
    (h : ∀ a ∈ l, (f a).Sublist [g a]) :
    (l.flatMap f).Sublist (l.map g) := by
  induction l with
  | nil => simp
  | cons a t ih =>
      simp only [List.flatMap_cons, List.map_cons]
      exact (h a (List.mem_cons_self a t)).append
        (ih (fun x hx => h x (List.mem_cons_of_mem a hx)))

/-- Decimal representations of naturals below ten contain no space. -/
theorem repr_no_space (i : Nat) (h : i < 10) :
    (Nat.repr i).data.all (fun c => !(c == ' ')) = true := by
  interval_cases i <;> decide

/-- uid variable names contain no space below the index bounds. -/
theorem uidVarName_no_space (T : String) (hT : T.data.all (fun c => !(c == ' ')) = true)
    (i j : Nat) (hi : i < 10) (hj : j < 10) :
    (uidVarName T i j).data.all (fun c => !(c == ' ')) = true := by
  rw [uidVarName, String.data_append, String.data_append, List.all_append, List.all_append]
  rw [hT, repr_no_space i hi, repr_no_space j hj]
  rfl

/-- The declared names of a section's per-quad query blocks form a sublist of
the full variable-name list (quads with an object of an unsupported term type
declare nothing and are skipped). -/
theorem section_varNames_sublist (quads : List Quad) (T : String)
    (hT : T.data.all (fun c => !(c == ' ')) = true)
    (hg : (jsRecordValues (groupQuadsBySubject quads)).length ≤ 10)
    (hgl : ∀ g ∈ jsRecordValues (groupQuadsBySubject quads), g.length ≤ 10) :
    ((setNQuadsAndQueriesForQuadsBySubjectInContainer quads "entity" T).1.map firstToken).Sublist
      (fullVarNames T quads) := by
  unfold setNQuadsAndQueriesForQuadsBySubjectInContainer fullVarNames
  dsimp only
  rw [List.flatMap_map, List.map_flatMap]
  refine flatMap_sublist _ _ _ ?_
  intro ig hig
  have hi : ig.1 < 10 := lt_of_lt_of_le (List.fst_lt_of_mem_enum hig) hg
  have hgmem := List.snd_mem_of_mem_enum hig
  show (((stmtsForGroup "entity" T ig.1 ig.2).1).map firstToken).Sublist
    (ig.2.enum.map (fun jq => uidVarName T ig.1 jq.1))
  unfold stmtsForGroup
  dsimp only
  rw [List.flatMap_map, List.map_flatMap]
  refine flatMap_sublist_map _ _ _ ?_
  intro jq hjq
  have hj : jq.1 < 10 := lt_of_lt_of_le (List.fst_lt_of_mem_enum hjq) (hgl _ hgmem)
  have hn : ((T ++ Nat.repr ig.1 ++ Nat.repr jq.1).data.all (fun c => !(c == ' '))) = true :=
    uidVarName_no_space T hT ig.1 jq.1 hi hj
  unfold setStmtsForQuad
  rcases jq.2.object with u | b | ⟨v, dtt, lg⟩ | _
  · simp only [List.map_cons, List.map_nil]
    rw [firstToken_entityUidVarQuery _ _ hn]
    exact List.Sublist.refl _
  · simp only [List.map_cons, List.map_nil]
    rw [firstToken_blankNodeUidVarQuery _ _ _ hn]
    exact List.Sublist.refl _
  · simp only [List.map_cons, List.map_nil]
    rw [firstToken_literalUidVarQuery _ _ _ _ _ hn]
    exact List.Sublist.refl _
  · simp

/-- The canonical superlist of declared names in one upsert is duplicate-free
below the bounds: the fixed names differ pairwise and from every per-quad
variable name by their first characters, and the per-quad names are pairwise
distinct by digit injectivity. -/
theorem superNames_nodup (metadata ts : List Quad)
    (hmd₁ : (jsRecordValues (groupQuadsBySubject metadata)).length ≤ 10)
    (hmd₂ : ∀ g ∈ jsRecordValues (groupQuadsBySubject metadata), g.length ≤ 10)
    (hts₁ : (jsRecordValues (groupQuadsBySubject ts)).length ≤ 10)
    (hts₂ : ∀ g ∈ jsRecordValues (groupQuadsBySubject ts), g.length ≤ 10) :
    ("entity" :: ((("entityMetadata" :: fullVarNames "Metadata" metadata) ++ ["parent"]) ++
      ("entityEntityData" :: fullVarNames "EntityData" ts))).Nodup := by
  have hMd := fullVarNames_nodup "Metadata" metadata hmd₁ hmd₂
  have hDt := fullVarNames_nodup "EntityData" ts hts₁ hts₂
  have hMdHead := mem_fullVarNames_head "Metadata" metadata 'M' "etadata".data rfl
  have hDtHead := mem_fullVarNames_head "EntityData" ts 'E' "ntityData".data rfl
  rw [List.nodup_cons]
  refine ⟨?_, ?_⟩
  · simp only [List.mem_append, List.mem_cons, List.mem_singleton, not_or]
    refine ⟨⟨⟨by decide, ?_⟩, by decide⟩, by decide, ?_⟩
    · intro hx
      exact absurd (hMdHead _ hx) (by decide)
    · intro hx
      exact absurd (hDtHead _ hx) (by decide)
  · rw [List.nodup_append]
    refine ⟨?_, ?_, ?_⟩
    · rw [List.nodup_append]
      refine ⟨?_, List.nodup_singleton _, ?_⟩
      · rw [List.nodup_cons]
        refine ⟨?_, hMd⟩
        intro hx
        exact absurd (hMdHead _ hx) (by decide)
      · intro x hx hx'
        rw [List.mem_singleton] at hx'
        subst hx'
        rcases List.mem_cons.mp hx with he | hmem
        · exact absurd he (by decide)
        · exact absurd (hMdHead _ hmem) (by decide)
    · rw [List.nodup_cons]
      refine ⟨?_, hDt⟩
      intro hx
      exact absurd (hDtHead _ hx) (by decide)
    · intro x hx hx'
      rcases List.mem_append.mp hx with hx1 | hx2
      · rcases List.mem_cons.mp hx1 with he | hmem
        · subst he
          rcases List.mem_cons.mp hx' with he' | hmem'
          · exact absurd he' (by decide)
          · exact absurd (hDtHead _ hmem') (by decide)
        · rcases List.mem_cons.mp hx' with he' | hmem'
          · subst he'
            exact absurd (hMdHead _ hmem) (by decide)
          · have h1 := hMdHead _ hmem
            have h2 := hDtHead _ hmem'
            rw [h1] at h2
            exact absurd h2 (by decide)
      · rw [List.mem_singleton] at hx2
        subst hx2
        rcases List.mem_cons.mp hx' with he' | hmem'
        · exact absurd he' (by decide)
        · exact absurd (hDtHead _ hmem') (by decide)

/-- C10 (amended): in every upsert built for a write in which each section (the
metadata quads, and the data quads when present) groups at most ten subjects
with at most ten quads per subject, the query-variable names declared by the
generated query blocks - the entity and parent variables, the typed
child-deletion variables, and the per-quad object-lookup variables
`dgraphType ++ i ++ j` - are pairwise distinct.  (Beyond ten the decimal
concatenation collides: subject 1 / quad 11 and subject 11 / quad 1 both
declare `Metadata111`; see the counterexample.) -/
theorem upsert_query_variable_names_nodup (name : String) (metadata : List Quad)
    (parent : Option String) (triples : Option (List Quad))
    (hmd₁ : (jsRecordValues (groupQuadsBySubject metadata)).length ≤ 10)
    (hmd₂ : ∀ g ∈ jsRecordValues (groupQuadsBySubject metadata), g.length ≤ 10)
    (htr₁ : ∀ ts, triples = some ts → (jsRecordValues (groupQuadsBySubject ts)).length ≤ 10)
    (htr₂ : ∀ ts, triples = some ts →
      ∀ g ∈ jsRecordValues (groupQuadsBySubject ts), g.length ≤ 10) :
    ((sendDgraphUpsert name metadata parent triples).queries.map firstToken).Nodup := by
  have hsecMd := section_varNames_sublist metadata "Metadata" (by decide) hmd₁ hmd₂
  rcases triples with - | ts0
  · have hsuper := superNames_nodup metadata [] hmd₁ hmd₂ (by decide) (by decide)
    refine List.Nodup.sublist ?_ hsuper
    rcases parent with - | p
    · simp only [sendDgraphUpsert, replaceDataOfTypeInUidName]
      simp only [List.map_cons, List.map_append, List.append_nil, List.map_nil]
      rw [firstToken_entityUidVarQuery "entity" name (by decide)]
      rw [show firstToken (dataOfTypeInEntityQuery "entity" "Metadata") = "entityMetadata" from
        by decide]
      refine List.Sublist.cons₂ _ ?_
      exact ((List.Sublist.cons₂ _ hsecMd).trans
        (List.sublist_append_left _ ["parent"])).trans (List.sublist_append_left _ _)
    · simp only [sendDgraphUpsert, replaceDataOfTypeInUidName]
      simp only [List.map_cons, List.map_append, List.append_nil, List.map_nil]
      rw [firstToken_entityUidVarQuery "entity" name (by decide)]
      rw [firstToken_entityUidVarQuery "parent" p (by decide)]
      rw [show firstToken (dataOfTypeInEntityQuery "entity" "Metadata") = "entityMetadata" from
        by decide]
      refine List.Sublist.cons₂ _ ?_
      exact (List.Sublist.append (List.Sublist.cons₂ _ hsecMd)
        (List.Sublist.refl ["parent"])).trans (List.sublist_append_left _ _)
  · have hsecDt := section_varNames_sublist ts0 "EntityData" (by decide)
      (htr₁ ts0 rfl) (htr₂ ts0 rfl)
    have hsuper := superNames_nodup metadata ts0 hmd₁ hmd₂ (htr₁ ts0 rfl) (htr₂ ts0 rfl)
    refine List.Nodup.sublist ?_ hsuper
    rcases parent with - | p
    · simp only [sendDgraphUpsert, replaceDataOfTypeInUidName]
      simp only [List.map_cons, List.map_append, List.append_nil, List.map_nil]
      rw [firstToken_entityUidVarQuery "entity" name (by decide)]
      rw [show firstToken (dataOfTypeInEntityQuery "entity" "Metadata") = "entityMetadata" from
        by decide]
      rw [show firstToken (dataOfTypeInEntityQuery "entity" "EntityData") = "entityEntityData" from
        by decide]
      refine List.Sublist.cons₂ _ ?_
      exact List.Sublist.append
        ((List.Sublist.cons₂ _ hsecMd).trans (List.sublist_append_left _ ["parent"]))
        (List.Sublist.cons₂ _ hsecDt)
    · simp only [sendDgraphUpsert, replaceDataOfTypeInUidName]
      simp only [List.map_cons, List.map_append, List.append_nil, List.map_nil]
      rw [firstToken_entityUidVarQuery "entity" name (by decide)]
      rw [firstToken_entityUidVarQuery "parent" p (by decide)]
      rw [show firstToken (dataOfTypeInEntityQuery "entity" "Metadata") = "entityMetadata" from
        by decide]
      rw [show firstToken (dataOfTypeInEntityQuery "entity" "EntityData") = "entityEntityData" from
        by decide]
      refine List.Sublist.cons₂ _ ?_
      refine List.Sublist.append ?_ (List.Sublist.cons₂ _ hsecDt)
      exact List.Sublist.append (List.Sublist.cons₂ _ hsecMd) (List.Sublist.refl _)

/-- Witness for C10 (amended) at a concrete small write. -/
theorem upsert_query_variable_names_nodup_witness :
    ((sendDgraphUpsert "http://test.com/container/"
        [⟨Term.namedNode "http://test.com/container/",
          Term.namedNode "http://www.w3.org/1999/02/22-rdf-syntax-ns#type",
          Term.namedNode "http://www.w3.org/ns/ldp#Container", Term.defaultGraph⟩]
        (some "http://test.com/")
        (some [⟨Term.namedNode "urn:s", Term.namedNode "urn:p",
          Term.literal "5" "http://www.w3.org/2001/XMLSchema#integer" "",
          Term.defaultGraph⟩])).queries.map firstToken).Nodup :=
  upsert_query_variable_names_nodup _ _ _ _ (by decide) (by decide)
    (fun ts hts => by obtain rfl := Option.some.inj hts; decide)
    (fun ts hts => by obtain rfl := Option.some.inj hts; decide)

/-- A quad with the given named subject and predicate. -/
def c10Quad (s p : String) : Quad :=
  ⟨Term.namedNode s, Term.namedNode p, Term.namedNode "urn:o", Term.defaultGraph⟩

/-- Metadata with 12 subject groups where group 1 has 12 quads and group 11 has
2 quads: the names `Metadata` ++ 1 ++ 11 and `Metadata` ++ 11 ++ 1 coincide. -/
def c10Metadata : List Quad :=
  [c10Quad "urn:s0" "urn:p"] ++
    (List.range 12).map (fun j => c10Quad "urn:s1" ("urn:p" ++ Nat.repr j)) ++
    (List.range 9).map (fun m => c10Quad ("urn:t" ++ Nat.repr m) "urn:p") ++
    [c10Quad "urn:s11" "urn:p0", c10Quad "urn:s11" "urn:p1"]

/-- C10 counterexample: in the upsert built for `c10Metadata`, the declared
query-variable name "Metadata111" is produced twice (by subject index 1 / quad
index 11 and by subject index 11 / quad index 1), so the declared names are not
pairwise distinct as claimed. -/
theorem upsert_query_variable_names_counterexample :
    ((sendDgraphUpsert "http://test.com/c/" c10Metadata none none).queries.map
      firstToken).count "Metadata111" = 2 ∧
    ¬ ((sendDgraphUpsert "http://test.com/c/" c10Metadata none none).queries.map
      firstToken).Nodup := by
  refine ⟨by decide, ?_⟩
  intro h
  have h1 := List.nodup_iff_count_le_one.mp h "Metadata111"
  rw [show ((sendDgraphUpsert "http://test.com/c/" c10Metadata none none).queries.map
    firstToken).count "Metadata111" = 2 from by decide] at h1
  omega

/-! ## Claim C1: writeDocument / getData round trip -/

/-- Renaming of blank-node labels, the degree of freedom of RDF dataset
isomorphism. -/
def Term.renameBlankNodes (f : String → String) : Term → Term
  | .blankNode b => .blankNode (f b)
  | t => t

/-- Renaming of blank-node labels in all four positions of a quad. -/
def Quad.renameBlankNodes (f : String → String) (q : Quad) : Quad :=
  ⟨q.subject.renameBlankNodes f, q.predicate.renameBlankNodes f,
   q.object.renameBlankNodes f, q.graph.renameBlankNodes f⟩

/-- Quad-set isomorphism: some bijective relabeling of blank nodes maps the
first set exactly onto the second. -/
def quadSetIso (A B : List Quad) : Prop :=
  ∃ f : String → String, Function.Bijective f ∧
    ∀ q', q' ∈ B ↔ ∃ q ∈ A, q.renameBlankNodes f = q'

/-- Object terms for which the write path emits an edge and object statements
(every term type except the default graph, which matches no branch). -/
def isEdgeObject : Term → Bool
  | .namedNode _ => true
  | .blankNode _ => true
  | .literal _ _ _ => true
  | .defaultGraph => false

/-- Modelled from the spec: the stored node for one written object term, as the
fixed two-level getData query returns it.  A literal is interned as a value
node carrying exactly its value slot (the NQuad-level escaping of double
quotes being undone by the database's NQuad parser: the spec states values are
escaped on write and exactly restored on read), `language` and `datatype`; a
named node as an Entity node with its `uri`; a blank-node object as an
EntityData node tagged with the `blankNode` marker and owned by the container.
The `uid` values stand for database-assigned node ids (never read by the
decoder). -/
def objectJsNode : Term → JsObject
  | .literal v d l =>
      [(literalDatatypeToPrimitivePredicate d, JsValue.str v),
       ("language", JsValue.str l), ("datatype", JsValue.str d)]
  | .namedNode u =>
      [("uid", JsValue.str "0x2"), ("uri", JsValue.str u), ("dgraph.type", JsValue.str "Entity")]
  | .blankNode b =>
      [("uid", JsValue.str "0x3"), ("blankNode", JsValue.str b),
       ("container", JsValue.obj [("uid", JsValue.str "0x0")]),
       ("dgraph.type", JsValue.str "EntityData")]
  | .defaultGraph => []

/-- Modelled from the spec: the JSON node of one stored subject node (one group
of the write's subject grouping) as the fixed two-level getData query returns
it.  Its identity is the `uri` - or `blankNode` marker, chosen by the first
quad of the group exactly as the write path chose the identity statement -
followed by the reserved bookkeeping properties and one property per distinct
predicate of the group, holding the array of stored object nodes in quad
order. -/
def subjectJsNode (dgraphType : String) (group : List Quad) : JsObject :=
  (match group.head? with
   | some q =>
       match q.subject with
       | .blankNode b => [("blankNode", JsValue.str b)]
       | s => [("uri", JsValue.str s.value)]
   | none => []) ++
  [("uid", JsValue.str "0x1"),
   ("container", JsValue.obj [("uid", JsValue.str "0x0")]),
   ("dgraph.type", JsValue.str dgraphType)] ++
  (groupByStringKey (fun q : Quad => q.predicate.value)
      (group.filter (fun q => isEdgeObject q.object))).map
    (fun kv => (kv.1, JsValue.arr (kv.2.map (fun q => objectJsNode q.object))))

/-- Modelled from the spec: the `responseJSON.data` array the fixed getData
query returns after `writeDocument` stored `triples` on a fresh database: one
node per subject group of the write (type EntityData, `container` pointing at
the entity), plus one bare EntityData stub per stored blank-node object (those
nodes also carry a `container` edge, so `has(container)` matches them; they
hold no predicate edges of their own). -/
def dgraphDataJson (triples : List Quad) : List JsObject :=
  (jsRecordValues (groupQuadsBySubject triples)).map (subjectJsNode "EntityData") ++
    (triples.filter (fun q => match q.object with
      | Term.blankNode _ => true
      | _ => false)).map (fun q => objectJsNode q.object)

/-- `writeDocument` followed by `getData` on the same identifier, against the
spec-modelled store: the write either rejects the input or stores it, and the
read decodes the stored tree with `rdfQuadsFromJsonArray`. -/
def writeDocumentThenGetData (name : String) (parent : Option String) (triples : List Quad)
    (metadata : List Quad) : Except HttpError (List Quad) :=
  match writeDocument name parent triples metadata with
  | .error e => .error e
  | .ok _ => .ok (rdfQuadsFromJsonArray (dgraphDataJson triples) none none)

/-- Well-formed RDF subject: an IRI, or a blank node with a non-empty label. -/
def wfSubjectTerm : Term → Bool
  | .namedNode _ => true
  | .blankNode b => !(b == "")
  | _ => false

/-- Well-formed RDF predicate: an IRI (it contains a colon, hence collides with
no reserved response key). -/
def wfPredicateTerm : Term → Bool
  | .namedNode p => p.data.any (fun c => c == ':')
  | _ => false

/-- Well-formed RDF literal components: a non-empty datatype IRI without double
quotes; a language tag present (non-empty, lowercase, quote-free) exactly when
the datatype is rdf:langString. -/
def wfLiteral (datatype language : String) : Bool :=
  !(datatype == "") && !(datatype.data.any (fun c => c == '\"')) &&
    !(language.data.any (fun c => c == '\"')) &&
    ((language == "" && !(datatype == rdfLangString)) ||
     (!(language == "") && datatype == rdfLangString && jsToLower language == language))

/-- Well-formed RDF object: an IRI, a blank node with a non-empty label, or a
well-formed literal. -/
def wfObjectTerm : Term → Bool
  | .namedNode _ => true
  | .blankNode b => !(b == "")
  | .literal _ d l => wfLiteral d l
  | .defaultGraph => false

/-- The value-slot predicate of any datatype is one of the five slots. -/
theorem litPred_cases (d : String) :
    literalDatatypeToPrimitivePredicate d = "_value.%dt" ∨
    literalDatatypeToPrimitivePredicate d = "_value.#i" ∨
    literalDatatypeToPrimitivePredicate d = "_value.?" ∨
    literalDatatypeToPrimitivePredicate d = "_value.#" ∨
    literalDatatypeToPrimitivePredicate d = "_value.%" := by
  unfold literalDatatypeToPrimitivePredicate
  split_ifs <;> simp

/-- Rebuilding the n3 literal from the stored fields restores a well-formed
literal exactly. -/
theorem mkN3Literal_roundtrip (v d l : String) (ho : wfLiteral d l = true) :
    mkN3Literal v (!(d == "") && !(d == xsdString) && !(d == rdfLangString)) d l =
      Term.literal v d l := by
  unfold wfLiteral at ho
  simp only [Bool.and_eq_true, Bool.or_eq_true, beq_iff_eq, Bool.not_eq_true',
    beq_eq_false_iff_ne, ne_eq] at ho
  obtain ⟨⟨⟨hd0, -⟩, -⟩, hcase⟩ := ho
  unfold mkN3Literal
  by_cases hl : l = ""
  · rw [if_pos hl]
    subst hl
    have hlang : ¬(d = rdfLangString) := by
      rcases hcase with ⟨-, h⟩ | ⟨⟨hfalse, -⟩, -⟩
      · exact h
      · exact absurd rfl hfalse
    by_cases hx : d = xsdString
    · subst hx
      rw [show (!(xsdString == "") && !(xsdString == xsdString) &&
        !(xsdString == rdfLangString)) = false from by decide]
      rfl
    · rw [show (!(d == "") && !(d == xsdString) && !(d == rdfLangString)) = true from by
        simp [hd0, hx, hlang]]
      rfl
  · rw [if_neg hl]
    have hd : d = rdfLangString ∧ jsToLower l = l := by
      rcases hcase with ⟨hfalse, -⟩ | ⟨⟨-, h1⟩, h2⟩
      · exact absurd hfalse hl
      · exact ⟨h1, h2⟩
    rw [hd.1]
    rw [show (!(rdfLangString == "") && !(rdfLangString == xsdString) &&
      !(rdfLangString == rdfLangString)) = false from by decide]
    rw [if_neg (by simp)]
    rw [hd.2]

/-- Decoding the stored object node restores the object term. -/
theorem dgraphNodeToTerm_objectJsNode (o : Term) (ho : wfObjectTerm o = true) :
    dgraphNodeToTerm (objectJsNode o) = o := by
  rcases o with u | b | ⟨v, d, l⟩ | _
  · rfl
  · simp only [wfObjectTerm] at ho
    have h1 : jsTruthyKey (objectJsNode (Term.blankNode b)) "blankNode" = !(b == "") := rfl
    have h2 : jsGetStr (objectJsNode (Term.blankNode b)) "blankNode" = some b := rfl
    unfold dgraphNodeToTerm
    rw [h1, ho, if_pos rfl, h2]
    rfl
  · simp only [wfObjectTerm] at ho
    rcases litPred_cases d with h | h | h | h | h <;>
      rw [show objectJsNode (Term.literal v d l) =
          [(literalDatatypeToPrimitivePredicate d, JsValue.str v),
           ("language", JsValue.str l), ("datatype", JsValue.str d)] from rfl, h] <;>
      exact Eq.trans rfl (mkN3Literal_roundtrip v d l ho)
  · simp [wfObjectTerm] at ho

/-- Numeric insertion is a permutation of consing. -/
theorem insertByNumericValue_perm (k : String) (l : List String) :
    List.Perm (insertByNumericValue k l) (k :: l) := by
  induction l with
  | nil => exact List.Perm.refl _
  | cons x xs ih =>
      unfold insertByNumericValue
      by_cases h : digitsToNat k.data ≤ digitsToNat x.data
      · rw [if_pos h]
      · rw [if_neg h]
        exact (List.Perm.cons x ih).trans (List.Perm.swap k x xs)

/-- The numeric insertion sort permutes its input. -/
theorem sortByNumericValue_perm (l : List String) :
    List.Perm (sortByNumericValue l) l := by
  induction l with
  | nil => exact List.Perm.refl _
  | cons x xs ih =>
      exact (insertByNumericValue_perm x (sortByNumericValue xs)).trans (List.Perm.cons x ih)

/-- ECMAScript enumeration order permutes the key list. -/
theorem jsOrderedKeys_perm (keys : List String) :
    List.Perm (jsOrderedKeys keys) keys := by
  unfold jsOrderedKeys
  exact ((sortByNumericValue_perm _).append (List.Perm.refl _)).trans
    (List.filter_append_perm _ keys)

/-- `Object.values` of a nodup-keyed record permutes the stored groups. -/
theorem jsRecordValues_perm {α : Type} (r : List (String × List α))
    (hnd : (r.map Prod.fst).Nodup) :
    List.Perm (jsRecordValues r) (r.map Prod.snd) := by
  rw [← filterMap_recLookup_self r hnd]
  exact List.Perm.filterMap _ (jsOrderedKeys_perm _)

/-- Membership in `Object.values` of a nodup-keyed record is membership of a
stored group. -/
theorem mem_jsRecordValues {α : Type} (r : List (String × List α))
    (hnd : (r.map Prod.fst).Nodup) (g : List α) :
    g ∈ jsRecordValues r ↔ ∃ k, (k, g) ∈ r := by
  rw [(jsRecordValues_perm r hnd).mem_iff, List.mem_map]
  constructor
  · rintro ⟨⟨k, vs⟩, hm, hsnd⟩
    exact ⟨k, by rwa [show vs = g from hsnd] at hm⟩
  · rintro ⟨k, hm⟩
    exact ⟨(k, g), hm, rfl⟩

/-- Each entry of a grouped record holds exactly the key's preimage, in input
order. -/
theorem groupByStringKey_entry_eq {α : Type} (key : α → String) (l : List α)
    (k : String) (vs : List α) (hm : (k, vs) ∈ groupByStringKey key l) :
    vs = l.filter (fun a => key a == k) := by
  have hl := (mem_iff_recLookup _ (nodup_keys_groupByStringKey key l) k vs).mp hm
  rw [recLookup_groupByStringKey] at hl
  by_cases ha : l.any (fun a => key a == k)
  · rw [if_pos ha] at hl
    exact (Option.some.inj hl).symm
  · rw [if_neg ha] at hl
    exact absurd hl (by simp)

/-- Every input element contributes its group entry to the grouped record. -/
theorem groupByStringKey_entry_mem {α : Type} (key : α → String) (l : List α)
    (a : α) (ha : a ∈ l) :
    (key a, l.filter (fun x => key x == key a)) ∈ groupByStringKey key l := by
  rw [mem_iff_recLookup _ (nodup_keys_groupByStringKey key l), recLookup_groupByStringKey]
  rw [if_pos (List.any_eq_true.mpr ⟨a, ha, beq_self_eq_true (key a)⟩)]

/-- Every key of the grouped record is the key of some input element. -/
theorem groupByStringKey_key_spec {α : Type} (key : α → String) (l : List α)
    (k : String) (vs : List α) (hm : (k, vs) ∈ groupByStringKey key l) :
    ∃ a ∈ l, key a = k := by
  have hl := (mem_iff_recLookup _ (nodup_keys_groupByStringKey key l) k vs).mp hm
  rw [recLookup_groupByStringKey] at hl
  by_cases ha : l.any (fun a => key a == k)
  · obtain ⟨a, hal, hbeq⟩ := List.any_eq_true.mp ha
    exact ⟨a, hal, beq_iff_eq.mp hbeq⟩
  · rw [if_neg ha] at hl
    exact absurd hl (by simp)

/-- A string with a colon never beq-matches one without. -/
theorem hasColon_beq_false (p t : String) (hp : p.data.any (fun c => c == ':') = true)
    (ht : t.data.any (fun c => c == ':') = false) : (p == t) = false := by
  rw [beq_eq_false_iff_ne]
  intro he
  rw [he, ht] at hp
  exact Bool.false_ne_true hp

/-- A key containing a colon is none of the reserved non-RDF keys. -/
theorem hasColon_not_reserved (p : String) (hp : p.data.any (fun c => c == ':') = true) :
    NON_RDF_KEYS.contains p = false := by
  simp only [NON_RDF_KEYS, List.contains_cons, List.contains_nil, Bool.or_false]
  rw [hasColon_beq_false p "uid" hp (by decide), hasColon_beq_false p "uri" hp (by decide),
    hasColon_beq_false p "container" hp (by decide),
    hasColon_beq_false p "dgraph.type" hp (by decide)]
  rfl

/-- A well-formed object term takes an edge-emitting branch of the write. -/
theorem wfObject_isEdge (o : Term) (h : wfObjectTerm o = true) : isEdgeObject o = true := by
  cases o <;> simp_all [wfObjectTerm, isEdgeObject]

/-- Identity renaming of blank labels fixes every term. -/
theorem renameBlankNodes_id_term (t : Term) : t.renameBlankNodes id = t := by
  cases t <;> rfl

/-- Identity renaming of blank labels fixes every quad. -/
theorem renameBlankNodes_id_quad (q : Quad) : q.renameBlankNodes id = q := by
  cases q
  simp [Quad.renameBlankNodes, renameBlankNodes_id_term]

/-- The bare EntityData stub stored for a blank-node object decodes to no quad:
its only non-reserved key, the `blankNode` marker, is string-valued. -/
theorem decode_blank_stub (b : String) :
    rdfQuadsFromRootEntity (objectJsNode (Term.blankNode b)) = [] := rfl

/-- Decoding the predicate entries of a stored subject node: one quad per group
quad, carrying the given subject term, the predicate IRI read back from the
key, and the object restored exactly. -/
theorem decode_predEntries (tm : Term) (gf : List Quad)
    (ho : ∀ q ∈ gf, wfObjectTerm q.object = true) (q' : Quad) :
    q' ∈ ((groupByStringKey (fun q : Quad => q.predicate.value) gf).map
        (fun kv => (kv.1, JsValue.arr (kv.2.map (fun q => objectJsNode q.object))))).flatMap
      (fun kv => match kv.2 with
        | JsValue.arr objects => rdfQuadsFromNestedJson objects tm (Term.namedNode kv.1)
        | JsValue.obj o => rdfQuadsFromNestedJson [o] tm (Term.namedNode kv.1)
        | JsValue.str _ => []) ↔
    (∃ q ∈ gf, q' = ⟨tm, Term.namedNode q.predicate.value, q.object, Term.defaultGraph⟩) := by
  constructor
  · intro h
    obtain ⟨kv, hkv, hq'⟩ := List.mem_flatMap.mp h
    obtain ⟨⟨k, vs⟩, hgb, rfl⟩ := List.mem_map.mp hkv
    dsimp only at hq'
    unfold rdfQuadsFromNestedJson at hq'
    obtain ⟨e, he, rfl⟩ := List.mem_map.mp hq'
    obtain ⟨q, hqvs, rfl⟩ := List.mem_map.mp he
    have hvs := groupByStringKey_entry_eq (fun q : Quad => q.predicate.value) gf k vs hgb
    have hmem := List.mem_filter.mp (hvs ▸ hqvs)
    refine ⟨q, hmem.1, ?_⟩
    have hk : q.predicate.value = k := beq_iff_eq.mp hmem.2
    rw [dgraphNodeToTerm_objectJsNode _ (ho q hmem.1), hk]
  · rintro ⟨q, hq, rfl⟩
    apply List.mem_flatMap.mpr
    refine ⟨(q.predicate.value, JsValue.arr
        ((gf.filter (fun x => x.predicate.value == q.predicate.value)).map
          (fun x => objectJsNode x.object))),
      List.mem_map.mpr ⟨(q.predicate.value,
        gf.filter (fun x => x.predicate.value == q.predicate.value)),
        groupByStringKey_entry_mem (fun x : Quad => x.predicate.value) gf q hq, rfl⟩, ?_⟩
    dsimp only
    unfold rdfQuadsFromNestedJson
    apply List.mem_map.mpr
    refine ⟨objectJsNode q.object, List.mem_map.mpr ⟨q,
      List.mem_filter.mpr ⟨hq, beq_self_eq_true q.predicate.value⟩, rfl⟩, ?_⟩
    rw [dgraphNodeToTerm_objectJsNode _ (ho q hq)]

/-- A well-formed predicate's value carries its colon. -/
theorem wfPredicate_value_colon (t : Term) (h : wfPredicateTerm t = true) :
    t.value.data.any (fun c => c == ':') = true := by
  cases t <;> simp_all [wfPredicateTerm, Term.value]

/-- Decoding a stored subject node with a `uri` identity: the reserved keys are
dropped and each predicate entry decodes against the named subject, provided no
predicate key is `blankNode` or reserved. -/
theorem rdfQuadsFromRootEntity_named (u T : String) (preds : JsObject)
    (hbk : preds.any (fun kv => kv.1 == "blankNode") = false)
    (hfp : preds.filter (fun kv => !(NON_RDF_KEYS.contains kv.1)) = preds) :
    rdfQuadsFromRootEntity (("uri", JsValue.str u) :: ("uid", JsValue.str "0x1") ::
      ("container", JsValue.obj [("uid", JsValue.str "0x0")]) ::
      ("dgraph.type", JsValue.str T) :: preds) =
    preds.flatMap (fun kv => match kv.2 with
      | JsValue.arr objects =>
          rdfQuadsFromNestedJson objects (Term.namedNode u) (Term.namedNode kv.1)
      | JsValue.obj o => rdfQuadsFromNestedJson [o] (Term.namedNode u) (Term.namedNode kv.1)
      | JsValue.str _ => []) := by
  unfold rdfQuadsFromRootEntity
  rw [if_pos (Or.inl (show jsHasKey (("uri", JsValue.str u) :: ("uid", JsValue.str "0x1") ::
    ("container", JsValue.obj [("uid", JsValue.str "0x0")]) ::
    ("dgraph.type", JsValue.str T) :: preds) "uri" = true from rfl))]
  dsimp only
  rw [show jsHasKey (("uri", JsValue.str u) :: ("uid", JsValue.str "0x1") ::
    ("container", JsValue.obj [("uid", JsValue.str "0x0")]) ::
    ("dgraph.type", JsValue.str T) :: preds) "blankNode" =
      preds.any (fun kv => kv.1 == "blankNode") from rfl, hbk]
  simp only [Bool.false_and]
  rw [if_neg (show ¬(false = true) from by decide)]
  rw [show jsGetStr (("uri", JsValue.str u) :: ("uid", JsValue.str "0x1") ::
    ("container", JsValue.obj [("uid", JsValue.str "0x0")]) ::
    ("dgraph.type", JsValue.str T) :: preds) "uri" = some u from rfl]
  rw [show (("uri", JsValue.str u) :: ("uid", JsValue.str "0x1") ::
    ("container", JsValue.obj [("uid", JsValue.str "0x0")]) ::
    ("dgraph.type", JsValue.str T) :: preds).filter
      (fun kv => !(NON_RDF_KEYS.contains kv.1)) =
    preds.filter (fun kv => !(NON_RDF_KEYS.contains kv.1)) from rfl, hfp]
  rfl

/-- Decoding a stored subject node with a `blankNode` identity: the string
marker and the reserved keys contribute nothing and each predicate entry
decodes against the blank subject rebuilt from the marker. -/
theorem rdfQuadsFromRootEntity_blank (b T : String) (preds : JsObject)
    (hb : (b == "") = false)
    (hfp : preds.filter (fun kv => !(NON_RDF_KEYS.contains kv.1)) = preds) :
    rdfQuadsFromRootEntity (("blankNode", JsValue.str b) :: ("uid", JsValue.str "0x1") ::
      ("container", JsValue.obj [("uid", JsValue.str "0x0")]) ::
      ("dgraph.type", JsValue.str T) :: preds) =
    preds.flatMap (fun kv => match kv.2 with
      | JsValue.arr objects =>
          rdfQuadsFromNestedJson objects (Term.blankNode b) (Term.namedNode kv.1)
      | JsValue.obj o => rdfQuadsFromNestedJson [o] (Term.blankNode b) (Term.namedNode kv.1)
      | JsValue.str _ => []) := by
  unfold rdfQuadsFromRootEntity
  rw [if_pos (Or.inr (show jsHasKey (("blankNode", JsValue.str b) ::
    ("uid", JsValue.str "0x1") ::
    ("container", JsValue.obj [("uid", JsValue.str "0x0")]) ::
    ("dgraph.type", JsValue.str T) :: preds) "blankNode" = true from rfl))]
  dsimp only
  rw [show (jsHasKey (("blankNode", JsValue.str b) :: ("uid", JsValue.str "0x1") ::
      ("container", JsValue.obj [("uid", JsValue.str "0x0")]) ::
      ("dgraph.type", JsValue.str T) :: preds) "blankNode" &&
    jsTruthyKey (("blankNode", JsValue.str b) :: ("uid", JsValue.str "0x1") ::
      ("container", JsValue.obj [("uid", JsValue.str "0x0")]) ::
      ("dgraph.type", JsValue.str T) :: preds) "blankNode") = (true && !(b == "")) from rfl,
    hb]
  simp only [Bool.true_and, Bool.not_false, if_true]
  rw [show jsGetStr (("blankNode", JsValue.str b) :: ("uid", JsValue.str "0x1") ::
    ("container", JsValue.obj [("uid", JsValue.str "0x0")]) ::
    ("dgraph.type", JsValue.str T) :: preds) "blankNode" = some b from rfl]
  rw [show (("blankNode", JsValue.str b) :: ("uid", JsValue.str "0x1") ::
    ("container", JsValue.obj [("uid", JsValue.str "0x0")]) ::
    ("dgraph.type", JsValue.str T) :: preds).filter
      (fun kv => !(NON_RDF_KEYS.contains kv.1)) =
    ("blankNode", JsValue.str b) :: preds.filter (fun kv => !(NON_RDF_KEYS.contains kv.1))
    from rfl, hfp]
  rw [List.flatMap_cons]
  rfl

/-- Decoding the stored node of one subject group whose head quad is `q0`: one
quad per group quad, with the subject rebuilt from the head's identity marker
and predicates and objects restored exactly. -/
theorem decode_subjectJsNode (T : String) (g : List Quad) (q0 : Quad)
    (hhead : g.head? = some q0)
    (hwfs : wfSubjectTerm q0.subject = true)
    (hp : ∀ q ∈ g, wfPredicateTerm q.predicate = true)
    (ho : ∀ q ∈ g, wfObjectTerm q.object = true) (q' : Quad) :
    q' ∈ rdfQuadsFromRootEntity (subjectJsNode T g) ↔
      ∃ q ∈ g, q' = ⟨q0.subject, Term.namedNode q.predicate.value, q.object,
        Term.defaultGraph⟩ := by
  have hfe : g.filter (fun q => isEdgeObject q.object) = g :=
    List.filter_eq_self.mpr (fun q hq => wfObject_isEdge _ (ho q hq))
  have hcolon : ∀ kv ∈ (groupByStringKey (fun q : Quad => q.predicate.value) g).map
      (fun kv => (kv.1, JsValue.arr (kv.2.map (fun q => objectJsNode q.object)))),
      kv.1.data.any (fun c => c == ':') = true := by
    intro kv hkv
    obtain ⟨⟨k, vs⟩, hgb, rfl⟩ := List.mem_map.mp hkv
    obtain ⟨q, hq, hkq⟩ := groupByStringKey_key_spec _ _ _ _ hgb
    rw [show ((k, JsValue.arr (vs.map (fun q => objectJsNode q.object))).1 : String) = k
      from rfl, ← hkq]
    exact wfPredicate_value_colon _ (hp q hq)
  have hfp : ((groupByStringKey (fun q : Quad => q.predicate.value) g).map
      (fun kv => (kv.1, JsValue.arr (kv.2.map (fun q => objectJsNode q.object))))).filter
        (fun kv => !(NON_RDF_KEYS.contains kv.1)) =
      (groupByStringKey (fun q : Quad => q.predicate.value) g).map
        (fun kv => (kv.1, JsValue.arr (kv.2.map (fun q => objectJsNode q.object)))) :=
    List.filter_eq_self.mpr (fun kv hkv => by
      rw [hasColon_not_reserved _ (hcolon kv hkv)]
      rfl)
  have hbk' : ((groupByStringKey (fun q : Quad => q.predicate.value) g).map
      (fun kv => (kv.1, JsValue.arr (kv.2.map (fun q => objectJsNode q.object))))).any
        (fun kv => kv.1 == "blankNode") = false := by
    rw [List.any_eq_false]
    intro kv hkv
    rw [hasColon_beq_false _ "blankNode" (hcolon kv hkv) (by decide)]
    exact Bool.false_ne_true
  obtain ⟨s, p0, o0, g0⟩ := q0
  unfold subjectJsNode
  rw [hhead, hfe]
  cases s with
  | namedNode u =>
      exact (show q' ∈ rdfQuadsFromRootEntity (("uri", JsValue.str u) ::
          ("uid", JsValue.str "0x1") ::
          ("container", JsValue.obj [("uid", JsValue.str "0x0")]) ::
          ("dgraph.type", JsValue.str T) ::
          (groupByStringKey (fun q : Quad => q.predicate.value) g).map
            (fun kv => (kv.1, JsValue.arr (kv.2.map (fun q => objectJsNode q.object))))) ↔
        ∃ q ∈ g, q' = ⟨Term.namedNode u, Term.namedNode q.predicate.value, q.object,
          Term.defaultGraph⟩ from by
        rw [rdfQuadsFromRootEntity_named u T _ hbk' hfp]
        exact decode_predEntries (Term.namedNode u) g ho q')
  | blankNode b =>
      have hb : (b == "") = false := by
        simpa [wfSubjectTerm] using hwfs
      exact (show q' ∈ rdfQuadsFromRootEntity (("blankNode", JsValue.str b) ::
          ("uid", JsValue.str "0x1") ::
          ("container", JsValue.obj [("uid", JsValue.str "0x0")]) ::
          ("dgraph.type", JsValue.str T) ::
          (groupByStringKey (fun q : Quad => q.predicate.value) g).map
            (fun kv => (kv.1, JsValue.arr (kv.2.map (fun q => objectJsNode q.object))))) ↔
        ∃ q ∈ g, q' = ⟨Term.blankNode b, Term.namedNode q.predicate.value, q.object,
          Term.defaultGraph⟩ from by
        rw [rdfQuadsFromRootEntity_blank b T _ hb hfp]
        exact decode_predEntries (Term.blankNode b) g ho q')
  | literal v d l => simp [wfSubjectTerm] at hwfs
  | defaultGraph => simp [wfSubjectTerm] at hwfs

/-- A well-formed predicate is the IRI of its value. -/
theorem wfPredicate_eta (t : Term) (h : wfPredicateTerm t = true) :
    Term.namedNode t.value = t := by
  cases t <;> simp_all [wfPredicateTerm, Term.value]

/-- Decoding the whole getData response of a write restores exactly the written
quads (as a set): every decoded quad is a written quad and conversely, provided
the quads are well-formed, sit in the default graph, and no two distinct
subject terms share a value. -/
theorem mem_decode_dgraphDataJson (triples : List Quad)
    (hg : ∀ q ∈ triples, q.graph = Term.defaultGraph)
    (hs : ∀ q ∈ triples, wfSubjectTerm q.subject = true)
    (hp : ∀ q ∈ triples, wfPredicateTerm q.predicate = true)
    (ho : ∀ q ∈ triples, wfObjectTerm q.object = true)
    (hinj : ∀ q ∈ triples, ∀ r ∈ triples, q.subject.value = r.subject.value →
      q.subject = r.subject) (q' : Quad) :
    q' ∈ rdfQuadsFromJsonArray (dgraphDataJson triples) none none ↔ q' ∈ triples := by
  have hnd : ((groupQuadsBySubject triples).map Prod.fst).Nodup := by
    unfold groupQuadsBySubject
    exact nodup_keys_groupByStringKey _ _
  rw [show rdfQuadsFromJsonArray (dgraphDataJson triples) none none =
      (dgraphDataJson triples).flatMap rdfQuadsFromRootEntity from rfl]
  unfold dgraphDataJson
  rw [List.flatMap_append, List.mem_append]
  constructor
  · rintro (hgrp | hstub)
    · obtain ⟨e, he, hq'e⟩ := List.mem_flatMap.mp hgrp
      obtain ⟨grp, hgrpv, rfl⟩ := List.mem_map.mp he
      obtain ⟨k, hkg⟩ := (mem_jsRecordValues _ hnd grp).mp hgrpv
      unfold groupQuadsBySubject at hkg
      have hgrpeq : grp = triples.filter (fun q => q.subject.value == k) :=
        groupByStringKey_entry_eq _ _ _ _ hkg
      rcases hgs : grp with _ | ⟨q0, rest⟩
      · rw [hgs, show rdfQuadsFromRootEntity (subjectJsNode "EntityData" []) = []
          from rfl] at hq'e
        exact absurd hq'e (List.not_mem_nil q')
      · rw [hgs] at hq'e hgrpeq
        have hsubgrp : ∀ q ∈ q0 :: rest, q ∈ triples := fun q hq =>
          (List.mem_filter.mp (hgrpeq ▸ hq)).1
        have hiff := decode_subjectJsNode "EntityData" (q0 :: rest) q0 rfl
          (hs q0 (hsubgrp q0 (List.mem_cons_self q0 rest)))
          (fun q hq => hp q (hsubgrp q hq)) (fun q hq => ho q (hsubgrp q hq)) q'
        obtain ⟨q, hqg, rfl⟩ := hiff.mp hq'e
        have hq0fl : q0 ∈ triples.filter (fun q => q.subject.value == k) := by
          rw [← hgrpeq]
          exact List.mem_cons_self q0 rest
        have hv0 : q0.subject.value = k :=
          beq_iff_eq.mp (List.mem_filter.mp hq0fl).2
        have hqfl : q ∈ triples.filter (fun x => x.subject.value == k) := by
          rw [← hgrpeq]
          exact hqg
        have hvq : q.subject.value = k :=
          beq_iff_eq.mp (List.mem_filter.mp hqfl).2
        have hq'mem := hsubgrp q hqg
        have hsubeq : q0.subject = q.subject :=
          hinj q0 (hsubgrp q0 (List.mem_cons_self q0 rest)) q hq'mem (hv0.trans hvq.symm)
        rw [hsubeq, wfPredicate_eta _ (hp q hq'mem), ← hg q hq'mem]
        exact hq'mem
    · obtain ⟨e, he, hq'e⟩ := List.mem_flatMap.mp hstub
      obtain ⟨q, hqf, rfl⟩ := List.mem_map.mp he
      have hblank := (List.mem_filter.mp hqf).2
      cases hobj : q.object with
      | blankNode b =>
          rw [hobj, decode_blank_stub b] at hq'e
          exact absurd hq'e (List.not_mem_nil q')
      | namedNode u => rw [hobj] at hblank; exact absurd hblank (by simp)
      | literal v d l => rw [hobj] at hblank; exact absurd hblank (by simp)
      | defaultGraph => rw [hobj] at hblank; exact absurd hblank (by simp)
  · intro hq'
    refine Or.inl (List.mem_flatMap.mpr ?_)
    refine ⟨subjectJsNode "EntityData"
        (triples.filter (fun q => q.subject.value == q'.subject.value)),
      List.mem_map.mpr ⟨triples.filter (fun q => q.subject.value == q'.subject.value),
        ?_, rfl⟩, ?_⟩
    · apply (mem_jsRecordValues _ hnd _).mpr
      refine ⟨q'.subject.value, ?_⟩
      unfold groupQuadsBySubject
      exact groupByStringKey_entry_mem _ _ q' hq'
    · have hself : q' ∈ triples.filter (fun q => q.subject.value == q'.subject.value) :=
        List.mem_filter.mpr ⟨hq', beq_self_eq_true q'.subject.value⟩
      rcases hflt : triples.filter (fun q => q.subject.value == q'.subject.value)
        with _ | ⟨q0, rest⟩
      · rw [hflt] at hself
        exact absurd hself (List.not_mem_nil q')
      · rw [hflt]
        have hsubgrp : ∀ q ∈ q0 :: rest, q ∈ triples := fun q hq =>
          (List.mem_filter.mp (hflt.symm ▸ hq)).1
        apply (decode_subjectJsNode "EntityData" (q0 :: rest) q0 rfl
          (hs q0 (hsubgrp q0 (List.mem_cons_self q0 rest)))
          (fun q hq => hp q (hsubgrp q hq)) (fun q hq => ho q (hsubgrp q hq)) q').mpr
        refine ⟨q', by rw [hflt] at hself; exact hself, ?_⟩
        have hq0t : q0 ∈ triples := hsubgrp q0 (List.mem_cons_self q0 rest)
        have hq0f : q0 ∈ triples.filter (fun q => q.subject.value == q'.subject.value) := by
          rw [hflt]
          exact List.mem_cons_self q0 rest
        have hsubeq : q0.subject = q'.subject :=
          hinj q0 hq0t q' hq' (beq_iff_eq.mp (List.mem_filter.mp hq0f).2)
        rw [hsubeq, wfPredicate_eta _ (hp q' hq'), ← hg q' hq']

/-- C1 (amended): after a successful `writeDocument`, decoding the fixed
getData response restores exactly the written triples - in particular a quad
set isomorphic to them, by the identity relabeling - provided every triple sits
in the default graph, all subjects, predicates and objects are well-formed RDF
terms, and the subject term is determined by its value (no named subject IRI
equal to a blank subject label).  Without the last hypothesis the grouping by
`subject.value` conflates distinct subjects; see the counterexample. -/
theorem writeDocument_getData_roundtrip (name : String) (parent : Option String)
    (triples metadata : List Quad)
    (hg : ∀ q ∈ triples, q.graph = Term.defaultGraph)
    (hs : ∀ q ∈ triples, wfSubjectTerm q.subject = true)
    (hp : ∀ q ∈ triples, wfPredicateTerm q.predicate = true)
    (ho : ∀ q ∈ triples, wfObjectTerm q.object = true)
    (hinj : ∀ q ∈ triples, ∀ r ∈ triples, q.subject.value = r.subject.value →
      q.subject = r.subject) :
    writeDocumentThenGetData name parent triples metadata =
      Except.ok (rdfQuadsFromJsonArray (dgraphDataJson triples) none none) ∧
    (∀ q', q' ∈ rdfQuadsFromJsonArray (dgraphDataJson triples) none none ↔ q' ∈ triples) ∧
    quadSetIso triples (rdfQuadsFromJsonArray (dgraphDataJson triples) none none) := by
  have hmem := mem_decode_dgraphDataJson triples hg hs hp ho hinj
  have hc : triples.any (fun t => !(t.graph == Term.defaultGraph)) = false := by
    rw [List.any_eq_false]
    intro t ht
    rw [hg t ht]
    decide
  refine ⟨?_, hmem, id, Function.bijective_id, fun q' => ?_⟩
  · unfold writeDocumentThenGetData writeDocument
    rw [if_neg (show ¬(triples.any (fun t => !(t.graph == Term.defaultGraph)) = true) from by
      rw [hc]
      decide)]
  · rw [hmem q']
    constructor
    · intro h
      exact ⟨q', h, renameBlankNodes_id_quad q'⟩
    · rintro ⟨q, hq, rfl⟩
      rw [renameBlankNodes_id_quad]
      exact hq

/-- A concrete well-formed one-triple document for the round-trip theorem. -/
def c1WitnessTriples : List Quad :=
  [⟨Term.namedNode "urn:a", Term.namedNode "urn:p",
    Term.literal "v" xsdString "", Term.defaultGraph⟩]

/-- Witness for the amended round trip at a concrete well-formed document. -/
theorem writeDocument_getData_roundtrip_witness :
    writeDocumentThenGetData "http://test.com/doc" none c1WitnessTriples [] =
      Except.ok (rdfQuadsFromJsonArray (dgraphDataJson c1WitnessTriples) none none) ∧
    (∀ q', q' ∈ rdfQuadsFromJsonArray (dgraphDataJson c1WitnessTriples) none none ↔
      q' ∈ c1WitnessTriples) ∧
    quadSetIso c1WitnessTriples
      (rdfQuadsFromJsonArray (dgraphDataJson c1WitnessTriples) none none) :=
  writeDocument_getData_roundtrip "http://test.com/doc" none c1WitnessTriples []
    (by decide) (by decide) (by decide) (by decide) (by decide)

/-- A default-graph quad set with a named subject and a blank subject sharing
the value "urn:a". -/
def c1Quads : List Quad :=
  [⟨Term.namedNode "urn:a", Term.namedNode "urn:p",
    Term.literal "v1" xsdString "", Term.defaultGraph⟩,
   ⟨Term.blankNode "urn:a", Term.namedNode "urn:p",
    Term.literal "v2" xsdString "", Term.defaultGraph⟩]

/-- What the round trip actually returns on `c1Quads`: both quads come back
under the named subject, the blank subject being lost to the grouping by
`subject.value`. -/
def c1Decoded : List Quad :=
  [⟨Term.namedNode "urn:a", Term.namedNode "urn:p",
    Term.literal "v1" xsdString "", Term.defaultGraph⟩,
   ⟨Term.namedNode "urn:a", Term.namedNode "urn:p",
    Term.literal "v2" xsdString "", Term.defaultGraph⟩]

/-- C1 counterexample: `c1Quads` sits entirely in the default graph, yet the
write/read round trip returns `c1Decoded`, which is isomorphic to no relabeling
of `c1Quads`: the blank-subject quad would have to map to a blank-subject quad,
and `c1Decoded` has none. -/
theorem writeDocument_getData_counterexample :
    (∀ q ∈ c1Quads, q.graph = Term.defaultGraph) ∧
    writeDocumentThenGetData "http://test.com/doc" none c1Quads [] =
      Except.ok c1Decoded ∧
    ¬ quadSetIso c1Quads c1Decoded := by
  refine ⟨by decide, by rfl, ?_⟩
  rintro ⟨f, -, hiff⟩
  have hmem := (hiff ⟨Term.blankNode (f "urn:a"), Term.namedNode "urn:p",
      Term.literal "v2" xsdString "", Term.defaultGraph⟩).mpr
    ⟨⟨Term.blankNode "urn:a", Term.namedNode "urn:p",
      Term.literal "v2" xsdString "", Term.defaultGraph⟩, by decide, rfl⟩
  simp [c1Decoded] at hmem
